import Mathlib

/-!
Shallow embedding of the transform stage of the aviation analytics ETL
(`src/transform.py`) and proofs about its cleaning rules, derived
attributes, aggregations and reconciling joins.

DataFrames are embedded as lists of rows; the pandas integer index is
carried explicitly where the code drops rows by index.  Timestamps are
embedded as a pair of an absolute instant in seconds (used for ordering
and differences) and the calendar date the code reads off the value via
`build_dateCode`.  Numeric measures are rationals (exact arithmetic in
place of float64); count-like measures are integers.
-/

namespace AviationDW

/-- A calendar date `(year, month, day)`: the information carried by a
`build_dateCode` string "YYYY-M-D" and recovered by `pd.to_datetime`. -/
structure Date where
  year : Nat
  month : Nat
  day : Nat
deriving DecidableEq, Repr

/-- Numeric encoding of a date giving the chronological order that
`sorted` uses on datetime values (valid for real month/day ranges). -/
def Date.code (d : Date) : Nat := d.year * 10000 + d.month * 100 + d.day

/-- Chronological order on dates. -/
def dateLe (a b : Date) : Prop := a.code ≤ b.code

instance : DecidableRel dateLe := fun a b => inferInstanceAs (Decidable (a.code ≤ b.code))

instance : IsTotal Date dateLe := ⟨fun a b => Nat.le_total a.code b.code⟩

instance : IsTrans Date dateLe := ⟨fun _ _ _ h h2 => Nat.le_trans h h2⟩

/-- A point in time.  `abs` is the instant in seconds since a fixed
epoch (what comparisons and subtractions of pandas timestamps use);
`date` is its calendar date (what `build_dateCode` reads). -/
structure Timestamp where
  abs : Int
  date : Date
deriving DecidableEq, Repr

/-- A raw flight record as it enters the quality gate.  The actual
timestamps are nullable; the scheduled ones are required to parse
(unparseable dates abort the run, per the error-handling design). -/
structure Flight where
  aircraftregistration : String
  cancelled : Bool
  actualdeparture : Option Timestamp
  actualarrival : Option Timestamp
  scheduleddeparture : Timestamp
  scheduledarrival : Timestamp
deriving DecidableEq, Repr

/-- A flights DataFrame: rows paired with their pandas integer index. -/
abbrev FlightsDF := List (Nat × Flight)

/-- The mask-and-comparison of rule BR-1: a non-cancelled flight with
both actual timestamps present and `actualarrival <= actualdeparture`. -/
def rule1Violation (f : Flight) : Bool :=
  !f.cancelled &&
    match f.actualarrival, f.actualdeparture with
    | some arr, some dep => decide (arr.abs ≤ dep.abs)
    | _, _ => false

/-- BR-1 (`check_rule_1_actualarrival_after_departure`): swap the two
actual timestamps of every violating row, in place. -/
def check_rule_1_actualarrival_after_departure (df : FlightsDF) : FlightsDF :=
  df.map fun p =>
    if rule1Violation p.2 then
      (p.1, { p.2 with
        actualarrival := p.2.actualdeparture,
        actualdeparture := p.2.actualarrival })
    else p

/-- Concrete flight with equal actual timestamps: the BR-1 swap leaves
it unchanged, so the strict invariant fails on it. -/
def eqTimesFlight : Flight :=
  { aircraftregistration := "XY-AAA"
    cancelled := false
    actualdeparture := some ⟨100, ⟨2023, 1, 1⟩⟩
    actualarrival := some ⟨100, ⟨2023, 1, 1⟩⟩
    scheduleddeparture := ⟨0, ⟨2023, 1, 1⟩⟩
    scheduledarrival := ⟨50, ⟨2023, 1, 1⟩⟩ }

/-- Sort key used by `sort_values("actualdeparture")`: missing
departures sort to the end, as pandas places NaT last. -/
def depVal (p : Nat × Flight) : WithTop Int :=
  match p.2.actualdeparture with
  | some t => (t.abs : WithTop Int)
  | none => ⊤

/-- Row order for the per-aircraft timeline sort. -/
def depLe (p q : Nat × Flight) : Prop := depVal p ≤ depVal q

instance : DecidableRel depLe := fun p q => inferInstanceAs (Decidable (depVal p ≤ depVal q))

instance : IsTotal (Nat × Flight) depLe := ⟨fun p q => le_total (depVal p) (depVal q)⟩

instance : IsTrans (Nat × Flight) depLe := ⟨fun _ _ _ h h2 => le_trans h h2⟩

/-- The non-cancelled rows of the flights DataFrame. -/
def nonCancelledRows (df : FlightsDF) : FlightsDF :=
  df.filter fun p => !p.2.cancelled

/-- The aircraft registrations over which `groupby` iterates. -/
def aircraftList (df : FlightsDF) : List String :=
  (df.map fun p => p.2.aircraftregistration).dedup

/-- One aircraft's non-cancelled rows sorted by actual departure. -/
def sortedGroup (df : FlightsDF) (a : String) : FlightsDF :=
  List.insertionSort depLe
    ((nonCancelledRows df).filter fun p => p.2.aircraftregistration == a)

/-- The adjacent-pair overlap test: both the current row's arrival and
the next row's departure present, and arrival strictly after the next
departure. -/
def overlapFires (cur nxt : Nat × Flight) : Bool :=
  match cur.2.actualarrival, nxt.2.actualdeparture with
  | some arr, some dep => decide (dep.abs < arr.abs)
  | _, _ => false

/-- Indices collected from one aircraft's adjacent-pair pass. -/
def groupRemovals (g : FlightsDF) : List Nat :=
  (g.zip g.tail).filterMap fun c =>
    if overlapFires c.1 c.2 then some c.1.1 else none

/-- All indices scheduled for removal by rule BR-2. -/
def indicesToRemove (df : FlightsDF) : List Nat :=
  (aircraftList (nonCancelledRows df)).flatMap fun a =>
    groupRemovals (sortedGroup df a)

/-- BR-2 (`check_rule_2_no_overlapping_flights`): drop the collected
indices in place and append the dropped original records to the
overlapping-flights audit log.  Returns (remaining rows, log rows). -/
def check_rule_2_no_overlapping_flights (df : FlightsDF) : FlightsDF × List Flight :=
  (df.filter fun p => !((indicesToRemove df).contains p.1),
   (indicesToRemove df).filterMap fun i =>
     (df.find? fun p => p.1 == i).map Prod.snd)

/-- Two flight records overlap when the intersection of their
[actual departure, actual arrival] intervals has nonempty interior. -/
def flightsOverlap (f g : Flight) : Prop :=
  match f.actualdeparture, f.actualarrival, g.actualdeparture, g.actualarrival with
  | some fd, some fa, some gd, some ga => max fd.abs gd.abs < min fa.abs ga.abs
  | _, _, _, _ => False

instance (f g : Flight) : Decidable (flightsOverlap f g) := by
  unfold flightsOverlap
  rcases f.actualdeparture with _ | fd <;> rcases f.actualarrival with _ | fa <;>
    rcases g.actualdeparture with _ | gd <;> rcases g.actualarrival with _ | ga <;>
    simp only <;> infer_instance

/-- A disjoint pair of flights of one aircraft, as a witness input. -/
def disjA : Flight :=
  { aircraftregistration := "XY-BBB", cancelled := false
    actualdeparture := some ⟨0, ⟨2023, 2, 1⟩⟩, actualarrival := some ⟨3600, ⟨2023, 2, 1⟩⟩
    scheduleddeparture := ⟨0, ⟨2023, 2, 1⟩⟩, scheduledarrival := ⟨3600, ⟨2023, 2, 1⟩⟩ }

def disjB : Flight :=
  { aircraftregistration := "XY-BBB", cancelled := false
    actualdeparture := some ⟨7200, ⟨2023, 2, 1⟩⟩, actualarrival := some ⟨10800, ⟨2023, 2, 1⟩⟩
    scheduleddeparture := ⟨7200, ⟨2023, 2, 1⟩⟩, scheduledarrival := ⟨10800, ⟨2023, 2, 1⟩⟩ }

/-- A chain of three pairwise-adjacent overlapping flights: A overlaps
B and B overlaps C on the departure-sorted timeline. -/
def chainA : Flight :=
  { aircraftregistration := "XY-CCC", cancelled := false
    actualdeparture := some ⟨0, ⟨2023, 3, 1⟩⟩, actualarrival := some ⟨100, ⟨2023, 3, 1⟩⟩
    scheduleddeparture := ⟨0, ⟨2023, 3, 1⟩⟩, scheduledarrival := ⟨100, ⟨2023, 3, 1⟩⟩ }

def chainB : Flight :=
  { aircraftregistration := "XY-CCC", cancelled := false
    actualdeparture := some ⟨50, ⟨2023, 3, 1⟩⟩, actualarrival := some ⟨200, ⟨2023, 3, 1⟩⟩
    scheduleddeparture := ⟨50, ⟨2023, 3, 1⟩⟩, scheduledarrival := ⟨200, ⟨2023, 3, 1⟩⟩ }

def chainC : Flight :=
  { aircraftregistration := "XY-CCC", cancelled := false
    actualdeparture := some ⟨60, ⟨2023, 3, 1⟩⟩, actualarrival := some ⟨300, ⟨2023, 3, 1⟩⟩
    scheduleddeparture := ⟨60, ⟨2023, 3, 1⟩⟩, scheduledarrival := ⟨300, ⟨2023, 3, 1⟩⟩ }

def chainDF : FlightsDF := [(0, chainA), (1, chainB), (2, chainC)]

/-- Derived flight hours (`calculate_flight_attributes`): zero for a
cancelled flight, otherwise (actual arrival − actual departure) in
hours, with a missing difference filled with zero. -/
def Flight.flighthours (f : Flight) : ℚ :=
  if f.cancelled then 0
  else
    match f.actualarrival, f.actualdeparture with
    | some arr, some dep => ((arr.abs - dep.abs : ℤ) : ℚ) / 3600
    | _, _ => 0

/-- Derived takeoff flag: 1 unless cancelled. -/
def Flight.takeoffs (f : Flight) : ℤ := if f.cancelled then 0 else 1

/-- The cancelled flag as a 0/1 measure. -/
def Flight.CN (f : Flight) : ℤ := if f.cancelled then 1 else 0

/-- Delay minutes (`calc_delay`): (actual arrival − scheduled arrival)
in minutes where the mask holds (not cancelled, delay strictly between
15 minutes and 6 hours); zero otherwise, including a missing actual
arrival whose NaN delay fails the mask. -/
def Flight.DELAY (f : Flight) : ℚ :=
  match f.actualarrival with
  | some arr =>
      if f.cancelled = false ∧ 15 < ((arr.abs - f.scheduledarrival.abs : ℤ) : ℚ) / 60 ∧
          ((arr.abs - f.scheduledarrival.abs : ℤ) : ℚ) / 60 < 360 then
        ((arr.abs - f.scheduledarrival.abs : ℤ) : ℚ) / 60
      else 0
  | none => 0

/-- Delay flag: 1 exactly when the counted delay is positive. -/
def Flight.DY (f : Flight) : ℤ := if 0 < f.DELAY then 1 else 0

/-- A non-cancelled flight whose actual arrival is `secs` seconds after
its scheduled arrival, used for the delay-boundary scenario. -/
def lateFlight (secs : Int) : Flight :=
  { aircraftregistration := "XY-DDD", cancelled := false
    actualdeparture := some ⟨-3600, ⟨2023, 4, 1⟩⟩
    actualarrival := some ⟨secs, ⟨2023, 4, 1⟩⟩
    scheduleddeparture := ⟨-3600, ⟨2023, 4, 1⟩⟩
    scheduledarrival := ⟨0, ⟨2023, 4, 1⟩⟩ }

/-- A raw scheduled-maintenance record. -/
structure Maint where
  aircraftregistration : String
  scheduleddeparture : Timestamp
  scheduledarrival : Timestamp
  programmed : Bool
deriving DecidableEq, Repr

/-- The out-of-service duration in days (`calc_maintenance_time`). -/
def Maint.diffDays (m : Maint) : ℚ :=
  ((m.scheduledarrival.abs - m.scheduleddeparture.abs : ℤ) : ℚ) / 86400

/-- Time out of service, scheduled: the whole duration when programmed. -/
def Maint.TOSS (m : Maint) : ℚ := if m.programmed then m.diffDays else 0

/-- Time out of service, unscheduled: the whole duration when not programmed. -/
def Maint.TOSU (m : Maint) : ℚ := if m.programmed then 0 else m.diffDays

/-- `groupby(keys).agg(...)`: one output row per distinct key value,
built from that key's fiber of input rows. -/
def groupSum {α K β : Type} [DecidableEq K] (key : α → K) (mk : K → List α → β)
    (l : List α) : List β :=
  ((l.map key).dedup).map fun c => mk c (l.filter fun x => decide (key x = c))

/-- An aggregated (date, aircraft) maintenance row. -/
structure MRow where
  date : Date
  aircraftregistration : String
  ADOSS : ℚ
  ADOSU : ℚ
deriving DecidableEq, Repr

/-- `transform_maint`: derive TOSS/TOSU and the date key (the calendar
date of the scheduled departure, via `build_dateCode`), then group by
(date, aircraft) summing TOSS into ADOSS and TOSU into ADOSU. -/
def transform_maint (ms : List Maint) : List MRow :=
  groupSum (fun m => (m.scheduleddeparture.date, m.aircraftregistration))
    (fun c fiber =>
      { date := c.1, aircraftregistration := c.2,
        ADOSS := (fiber.map Maint.TOSS).sum,
        ADOSU := (fiber.map Maint.TOSU).sum })
    ms

/-- A scheduled maintenance record spanning exactly 2.5 days. -/
def schedMaint : Maint :=
  { aircraftregistration := "XY-EEE"
    scheduleddeparture := ⟨0, ⟨2023, 5, 1⟩⟩
    scheduledarrival := ⟨216000, ⟨2023, 5, 3⟩⟩
    programmed := true }

/-- The same 2.5-day record, unscheduled. -/
def unschedMaint : Maint :=
  { schedMaint with programmed := false }

/-- A row of the normalized aircraft dimension. -/
structure Aircraft where
  aircraftregistration : String
  manufacturer : String
  model : String
deriving DecidableEq, Repr

/-- A raw post-flight report record.  `reportingdate` keeps the
calendar date the code reads off the reporting timestamp. -/
structure Report where
  aircraftregistration : String
  reportingdate : Date
  reporteurclass : String
  reporteurid : Nat
deriving DecidableEq, Repr

/-- BR-3 (`check_rule_3_aircraft_exists`): reports whose registration
is absent from the aircraft dimension's registration set are dropped in
place and appended to the invalid-reports audit log.  Returns
(remaining reports, log rows). -/
def check_rule_3_aircraft_exists (reports : List Report) (aircrafts : List Aircraft) :
    List Report × List Report :=
  (reports.filter fun r =>
      (aircrafts.map Aircraft.aircraftregistration).contains r.aircraftregistration,
   reports.filter fun r =>
      !((aircrafts.map Aircraft.aircraftregistration).contains r.aircraftregistration))

/-- Concrete aircraft and reports for the BR-3 witness. -/
def wAircraft : Aircraft :=
  { aircraftregistration := "XY-FFF", manufacturer := "Boeing", model := "777" }

def validReport : Report :=
  { aircraftregistration := "XY-FFF", reportingdate := ⟨2023, 6, 1⟩
    reporteurclass := "PIREP", reporteurid := 1 }

def invalidReport : Report :=
  { aircraftregistration := "ZZ-999", reportingdate := ⟨2023, 6, 2⟩
    reporteurclass := "MAREP", reporteurid := 2 }

/-- A report row after `transform_reports`: the date key derived from
the reporting date, and 0/1 flags for the reporter class. -/
structure TRow where
  aircraftregistration : String
  date : Date
  reporteurclass : String
  reporteurid : Nat
  pilotreports : ℤ
  maintenancereports : ℤ
deriving DecidableEq, Repr

/-- `transform_reports`: derive the date key and the mutually exclusive
pilot/maintenance report flags from the reporter class. -/
def transform_reports (rs : List Report) : List TRow :=
  rs.map fun r =>
    { aircraftregistration := r.aircraftregistration
      date := r.reportingdate
      reporteurclass := r.reporteurclass
      reporteurid := r.reporteurid
      pilotreports := if r.reporteurclass == "PIREP" then 1 else 0
      maintenancereports := if r.reporteurclass == "MAREP" then 1 else 0 }

/-- An aggregated (date, aircraft) flights row (`transform_flights`). -/
structure FRow where
  date : Date
  aircraftregistration : String
  flighthours : ℚ
  takeoffs : ℤ
  delays : ℤ
  cancellations : ℤ
  delayduration : ℚ
deriving DecidableEq, Repr

/-- `transform_flights`: derive the per-flight attributes (the date key
being the calendar date of the scheduled departure) and group by
(date, aircraft) summing flighthours, takeoffs, delay flags, cancelled
flags and delay durations. -/
def transform_flights (fs : List Flight) : List FRow :=
  groupSum (fun f => (f.scheduleddeparture.date, f.aircraftregistration))
    (fun c fiber =>
      { date := c.1, aircraftregistration := c.2,
        flighthours := (fiber.map Flight.flighthours).sum,
        takeoffs := (fiber.map Flight.takeoffs).sum,
        delays := (fiber.map Flight.DY).sum,
        cancellations := (fiber.map Flight.CN).sum,
        delayduration := (fiber.map Flight.DELAY).sum })
    fs

/-- The (date, aircraft) grain key. -/
abbrev AggKey := Date × String

def FRow.key (r : FRow) : AggKey := (r.date, r.aircraftregistration)

def MRow.key (r : MRow) : AggKey := (r.date, r.aircraftregistration)

def TRow.key (r : TRow) : AggKey := (r.date, r.aircraftregistration)

/-- The reports aggregate produced inside the reconciler (step 5). -/
structure TProj where
  date : Date
  aircraftregistration : String
  pilotreports : ℤ
  maintenancereports : ℤ
deriving DecidableEq, Repr

def TProj.key (r : TProj) : AggKey := (r.date, r.aircraftregistration)

/-- A date-dimension row (`time_df`). -/
structure TimeRow where
  date : Date
  month : String
  year : Nat
deriving DecidableEq, Repr

/-- A daily aircraft stats fact row, after the zero fill. -/
structure DRow where
  date : Date
  aircraftregistration : String
  flighthours : ℚ
  takeoffs : ℤ
  delays : ℤ
  cancellations : ℤ
  delayduration : ℚ
  pilotreports : ℤ
  maintenancereports : ℤ
  ADOSS : ℚ
  ADOSU : ℚ
deriving DecidableEq, Repr

def DRow.key (r : DRow) : AggKey := (r.date, r.aircraftregistration)

/-- `build_monthCode`: "YYYY" followed by the zero-filled month. -/
def build_monthCode (d : Date) : String :=
  toString d.year ++ (if d.month < 10 then "0" ++ toString d.month else toString d.month)

/-- `merge(..., on=key, how="outer")`: each left row paired with its
key matches on the right (`none` when unmatched), followed by the
unmatched right rows. -/
def outerJoin {A B K : Type} [DecidableEq K] (ka : A → K) (kb : B → K)
    (ls : List A) (rs : List B) : List (K × Option A × Option B) :=
  (ls.flatMap fun l =>
    if (rs.filter fun r => kb r == ka l).isEmpty then [(ka l, some l, none)]
    else (rs.filter fun r => kb r == ka l).map fun r => (ka l, some l, some r))
  ++ ((rs.filter fun r => !(ls.any fun l => ka l == kb r)).map fun r =>
    (kb r, none, some r))

/-- Step 2 of the reconciler: the set of years present in the
aggregated flights. -/
def validYears (aggF : List FRow) : List Nat :=
  (aggF.map fun r => r.date.year).dedup

/-- Step 3: year filtering of each source against the flight years. -/
def yearFilteredFlights (aggF : List FRow) : List FRow :=
  aggF.filter fun r => (validYears aggF).contains r.date.year

def yearFilteredMaint (aggF : List FRow) (aggM : List MRow) : List MRow :=
  aggM.filter fun r => (validYears aggF).contains r.date.year

def yearFilteredTech (aggF : List FRow) (tech : List TRow) : List TRow :=
  tech.filter fun r => (validYears aggF).contains r.date.year

/-- Step 4: all distinct dates of the filtered sources. -/
def allDates (aggF : List FRow) (aggM : List MRow) (tech : List TRow) : List Date :=
  (((yearFilteredFlights aggF).map fun r => r.date) ++
   ((yearFilteredMaint aggF aggM).map fun r => r.date) ++
   ((yearFilteredTech aggF tech).map fun r => r.date)).dedup

/-- The sorted distinct dates of the date dimension. -/
def timeDates (aggF : List FRow) (aggM : List MRow) (tech : List TRow) : List Date :=
  List.insertionSort dateLe (allDates aggF aggM tech)

/-- The date dimension (`time_df`). -/
def timeDim (aggF : List FRow) (aggM : List MRow) (tech : List TRow) : List TimeRow :=
  (timeDates aggF aggM tech).map fun d =>
    { date := d, month := build_monthCode d, year := d.year }

/-- Step 5: group the filtered reports by (date, aircraft), summing the
two report flags. -/
def techProj (aggF : List FRow) (tech : List TRow) : List TProj :=
  groupSum TRow.key
    (fun c fiber =>
      { date := c.1, aircraftregistration := c.2,
        pilotreports := (fiber.map fun r => r.pilotreports).sum,
        maintenancereports := (fiber.map fun r => r.maintenancereports).sum })
    (yearFilteredTech aggF tech)

/-- Step 6, first outer merge: flights + aggregated reports. -/
def merged1 (aggF : List FRow) (tech : List TRow) :
    List (AggKey × Option FRow × Option TProj) :=
  outerJoin FRow.key TProj.key (yearFilteredFlights aggF) (techProj aggF tech)

/-- Step 6, second outer merge: + maintenance. -/
def merged2 (aggF : List FRow) (aggM : List MRow) (tech : List TRow) :
    List (AggKey × Option (AggKey × Option FRow × Option TProj) × Option MRow) :=
  outerJoin (fun x => x.1) MRow.key (merged1 aggF tech) (yearFilteredMaint aggF aggM)

/-- Step 7: fill the measures of the absent sides with zero (`fillna(0)`
on the numeric columns, count-like columns cast to integers). -/
def fillDaily
    (x : AggKey × Option (AggKey × Option FRow × Option TProj) × Option MRow) : DRow :=
  { date := x.1.1
    aircraftregistration := x.1.2
    flighthours := match x.2.1 with | some (_, some f, _) => f.flighthours | _ => 0
    takeoffs := match x.2.1 with | some (_, some f, _) => f.takeoffs | _ => 0
    delays := match x.2.1 with | some (_, some f, _) => f.delays | _ => 0
    cancellations := match x.2.1 with | some (_, some f, _) => f.cancellations | _ => 0
    delayduration := match x.2.1 with | some (_, some f, _) => f.delayduration | _ => 0
    pilotreports := match x.2.1 with | some (_, _, some t) => t.pilotreports | _ => 0
    maintenancereports := match x.2.1 with | some (_, _, some t) => t.maintenancereports | _ => 0
    ADOSS := match x.2.2 with | some mr => mr.ADOSS | none => 0
    ADOSU := match x.2.2 with | some mr => mr.ADOSU | none => 0 }

/-- The daily aircraft stats fact table. -/
def dailyStats (aggF : List FRow) (aggM : List MRow) (tech : List TRow) : List DRow :=
  (merged2 aggF aggM tech).map fillDaily

/-- `merge_flights_maint_log`: returns the date dimension and the daily
aircraft stats fact table. -/
def merge_flights_maint_log (aggF : List FRow) (aggM : List MRow) (tech : List TRow) :
    List TimeRow × List DRow :=
  (timeDim aggF aggM tech, dailyStats aggF aggM tech)

/-- A concrete aggregated flights row for witnesses. -/
def wFRow : FRow :=
  { date := ⟨2023, 7, 1⟩, aircraftregistration := "XY-HHH", flighthours := 0,
    takeoffs := 1, delays := 0, cancellations := 0, delayduration := 0 }

/-- Concrete rows for the year-filtering scenario: flights exist only in
2022 and 2023, one maintenance aggregate row is dated 2021. -/
def scenF1 : FRow :=
  { date := ⟨2022, 7, 1⟩, aircraftregistration := "XY-GGG", flighthours := 0,
    takeoffs := 1, delays := 0, cancellations := 0, delayduration := 0 }

def scenF2 : FRow :=
  { date := ⟨2023, 8, 2⟩, aircraftregistration := "XY-GGG", flighthours := 0,
    takeoffs := 1, delays := 0, cancellations := 0, delayduration := 0 }

def scenM21 : MRow :=
  { date := ⟨2021, 3, 4⟩, aircraftregistration := "XY-GGG", ADOSS := 1, ADOSU := 0 }

/-- A row of the reporter lookup file. -/
structure Reporter where
  reporteurid : Nat
  airport : String
deriving DecidableEq, Repr

/-- Flight totals per aircraft (step 1 of `create_total_maint_reports`). -/
structure GFRow where
  aircraftregistration : String
  takeoffs : ℤ
  flighthours : ℚ
deriving DecidableEq, Repr

/-- Per (reporter, aircraft) MAREP counts (step 3). -/
structure CountRow where
  reporteurid : Nat
  aircraftregistration : String
  count : Nat
deriving DecidableEq, Repr

/-- Per (aircraft, airport) totals (step 5). -/
structure TARow where
  aircraftregistration : String
  airport : String
  count : Nat
deriving DecidableEq, Repr

/-- A Total Maintenance Reports fact row; the flight measures stay null
when the left join in step 6 finds no flight aggregate. -/
structure TMRow where
  aircraftregistration : String
  airportcode : String
  reports : Nat
  takeoffs : Option ℤ
  flighthours : Option ℚ
deriving DecidableEq, Repr

/-- Step 1: aggregate flight data by aircraft. -/
def grouped_flights (aggF : List FRow) : List GFRow :=
  groupSum (fun r : FRow => r.aircraftregistration)
    (fun c fiber =>
      { aircraftregistration := c,
        takeoffs := (fiber.map fun r => r.takeoffs).sum,
        flighthours := (fiber.map fun r => r.flighthours).sum })
    aggF

/-- Step 2: keep only MAREP reports whose date lies in the date
dimension. -/
def marepReports (tech : List TRow) (time : List TimeRow) : List TRow :=
  (tech.filter fun r => r.reporteurclass == "MAREP").filter fun r =>
    (time.map fun t => t.date).contains r.date

/-- Step 3: count reports per (reporter, aircraft) before the join. -/
def reportCounts (tech : List TRow) (time : List TimeRow) : List CountRow :=
  groupSum (fun r : TRow => (r.reporteurid, r.aircraftregistration))
    (fun c fiber =>
      { reporteurid := c.1, aircraftregistration := c.2, count := fiber.length })
    (marepReports tech time)

/-- Step 4 (`join_airports_to_maint`): left join to the reporter lookup
on reporteurid; an unmatched reporter leaves a null airport. -/
def join_airports_to_maint (counts : List CountRow) (lookup : List Reporter) :
    List (CountRow × Option String) :=
  counts.flatMap fun c =>
    if (lookup.filter fun l => l.reporteurid == c.reporteurid).isEmpty then [(c, none)]
    else (lookup.filter fun l => l.reporteurid == c.reporteurid).map fun l =>
      (c, some l.airport)

/-- Step 5: group by (aircraft, airport) summing counts.  As pandas
`groupby` does by default, rows whose airport key is null are dropped. -/
def totalByAirport (cj : List (CountRow × Option String)) : List TARow :=
  ((cj.filterMap fun x => x.2.map fun a => (x.1.aircraftregistration, a)).dedup).map
    fun c =>
      { aircraftregistration := c.1, airport := c.2,
        count := ((cj.filter fun x =>
          decide (x.1.aircraftregistration = c.1 ∧ x.2 = some c.2)).map
            fun x => x.1.count).sum }

/-- `create_total_maint_reports`: steps 1-5 above, then a left merge of
the per-aircraft flight totals (step 6). -/
def create_total_maint_reports (aggF : List FRow) (tech : List TRow)
    (lookup : List Reporter) (time : List TimeRow) : List TMRow :=
  (totalByAirport (join_airports_to_maint (reportCounts tech time) lookup)).flatMap
    fun t =>
      if ((grouped_flights aggF).filter fun g =>
          g.aircraftregistration == t.aircraftregistration).isEmpty then
        [{ aircraftregistration := t.aircraftregistration, airportcode := t.airport,
           reports := t.count, takeoffs := none, flighthours := none }]
      else ((grouped_flights aggF).filter fun g =>
          g.aircraftregistration == t.aircraftregistration).map fun g =>
        { aircraftregistration := t.aircraftregistration, airportcode := t.airport,
          reports := t.count, takeoffs := some g.takeoffs,
          flighthours := some g.flighthours }

/-- A MAREP report whose reporter id has no row in the lookup. -/
def orphanMarep (lookup : List Reporter) (r : TRow) : Bool :=
  r.reporteurclass == "MAREP" &&
    !((lookup.map Reporter.reporteurid).contains r.reporteurid)

/-- Concrete inputs for the orphan-MAREP witness: reporter 2 has no
lookup row. -/
def wTech : List TRow :=
  [{ aircraftregistration := "XY-III", date := ⟨2023, 7, 1⟩, reporteurclass := "MAREP",
     reporteurid := 1, pilotreports := 0, maintenancereports := 1 },
   { aircraftregistration := "XY-III", date := ⟨2023, 7, 1⟩, reporteurclass := "MAREP",
     reporteurid := 2, pilotreports := 0, maintenancereports := 1 }]

def wLookup : List Reporter := [{ reporteurid := 1, airport := "BCN" }]

def wTime : List TimeRow := [{ date := ⟨2023, 7, 1⟩, month := "202307", year := 2023 }]

/-- The daily fact row produced from `wFRow` alone. -/
def wDRow : DRow :=
  { date := ⟨2023, 7, 1⟩, aircraftregistration := "XY-HHH", flighthours := 0,
    takeoffs := 1, delays := 0, cancellations := 0, delayduration := 0,
    pilotreports := 0, maintenancereports := 0, ADOSS := 0, ADOSU := 0 }

theorem rule1Violation_false {f : Flight} (hc : f.cancelled = false)
    {arr dep : Timestamp} (ha : f.actualarrival = some arr)
    (hd : f.actualdeparture = some dep) (h : rule1Violation f = false) :
    dep.abs < arr.abs := by
  unfold rule1Violation at h
  rw [hc, ha, hd] at h
  simp at h
  exact h

/-- C2 counterexample: on a one-row DataFrame whose flight has
`actualarrival = actualdeparture`, the record after
`check_rule_1_actualarrival_after_departure` still has equal
timestamps, so the strict inequality `actualdeparture < actualarrival`
claimed for all non-cancelled repaired records is false. -/
theorem strict_chronology_fails_on_equal_times :
    ¬ (∀ p ∈ check_rule_1_actualarrival_after_departure [(0, eqTimesFlight)],
        p.2.cancelled = false →
        ∀ arr dep : Timestamp, p.2.actualarrival = some arr →
          p.2.actualdeparture = some dep → dep.abs < arr.abs) := by
  intro h
  have hmem : (0, eqTimesFlight) ∈
      check_rule_1_actualarrival_after_departure [(0, eqTimesFlight)] := by
    decide
  have := h (0, eqTimesFlight) hmem rfl ⟨100, ⟨2023, 1, 1⟩⟩ ⟨100, ⟨2023, 1, 1⟩⟩ rfl rfl
  exact absurd this (by decide)

/-- C2 (amended): after `check_rule_1_actualarrival_after_departure`
runs, every non-cancelled flight record with both actual timestamps
present satisfies actual arrival >= actual departure; a violating
record (actual arrival <= actual departure) is repaired by swapping the
two values, which yields equality when the original values were equal. -/
theorem rule1_chronology_invariant (df : FlightsDF) :
    ∀ p ∈ check_rule_1_actualarrival_after_departure df,
      p.2.cancelled = false →
      ∀ arr dep : Timestamp, p.2.actualarrival = some arr →
        p.2.actualdeparture = some dep → dep.abs ≤ arr.abs := by
  intro p hp hc arr dep ha hd
  unfold check_rule_1_actualarrival_after_departure at hp
  rcases List.mem_map.mp hp with ⟨q, hq, hpq⟩
  by_cases hv : rule1Violation q.2 = true
  · rw [if_pos hv] at hpq
    subst hpq
    unfold rule1Violation at hv
    simp only [Bool.and_eq_true, Bool.not_eq_true'] at hv
    rcases hv with ⟨hqc, hm⟩
    simp only at ha hd
    rw [ha, hd] at hm
    simpa using hm
  · rw [if_neg hv] at hpq
    subst hpq
    have := rule1Violation_false hc ha hd (Bool.not_eq_true _ ▸ hv)
    exact le_of_lt this

/-- Witness for the amended C2 theorem at a concrete input. -/
theorem rule1_chronology_invariant_witness :
    (0, eqTimesFlight) ∈ check_rule_1_actualarrival_after_departure [(0, eqTimesFlight)] ∧
    (100 : Int) ≤ 100 := by
  constructor
  · decide
  · exact rule1_chronology_invariant [(0, eqTimesFlight)] (0, eqTimesFlight)
      (by decide) rfl ⟨100, ⟨2023, 1, 1⟩⟩ ⟨100, ⟨2023, 1, 1⟩⟩ rfl rfl

theorem mem_sortedGroup_iff {df : FlightsDF} {a : String} {p : Nat × Flight} :
    p ∈ sortedGroup df a ↔
      p ∈ df ∧ p.2.cancelled = false ∧ p.2.aircraftregistration = a := by
  unfold sortedGroup nonCancelledRows
  rw [List.mem_insertionSort, List.mem_filter, List.mem_filter]
  simp [and_assoc]

theorem sorted_sortedGroup (df : FlightsDF) (a : String) :
    List.Sorted depLe (sortedGroup df a) :=
  List.sorted_insertionSort depLe _

theorem fires_mem_groupRemovals {g : FlightsDF} {u : Nat} (hu : u + 1 < g.length)
    (hf : overlapFires (g.get ⟨u, lt_trans (Nat.lt_succ_self u) hu⟩) (g.get ⟨u + 1, hu⟩) = true) :
    (g.get ⟨u, lt_trans (Nat.lt_succ_self u) hu⟩).1 ∈ groupRemovals g := by
  have hu0 : u < g.length := lt_trans (Nat.lt_succ_self u) hu
  have hzl : u < (g.zip g.tail).length := by
    rw [List.length_zip, List.length_tail]
    omega
  have hztl : u < g.tail.length := by
    rw [List.length_tail]; omega
  have hz : (g.zip g.tail).get ⟨u, hzl⟩ = (g.get ⟨u, hu0⟩, g.get ⟨u + 1, hu⟩) := by
    rw [List.get_eq_getElem, List.getElem_zip]
    rw [List.get_eq_getElem, List.get_eq_getElem, List.getElem_tail]
  have hmem : (g.get ⟨u, hu0⟩, g.get ⟨u + 1, hu⟩) ∈ g.zip g.tail := by
    rw [← hz]; exact List.get_mem _ _ _
  unfold groupRemovals
  rw [List.mem_filterMap]
  refine ⟨(g.get ⟨u, hu0⟩, g.get ⟨u + 1, hu⟩), hmem, ?_⟩
  dsimp only
  rw [hf]
  rfl

theorem not_fires_of_kept {df : FlightsDF} {a : String} {u : Nat}
    (hu : u + 1 < (sortedGroup df a).length)
    (ha : a ∈ aircraftList (nonCancelledRows df))
    (hkeep : ((sortedGroup df a).get ⟨u, lt_trans (Nat.lt_succ_self u) hu⟩).1 ∉ indicesToRemove df) :
    overlapFires ((sortedGroup df a).get ⟨u, lt_trans (Nat.lt_succ_self u) hu⟩)
      ((sortedGroup df a).get ⟨u + 1, hu⟩) = false := by
  rcases Bool.eq_false_or_eq_true
      (overlapFires ((sortedGroup df a).get ⟨u, lt_trans (Nat.lt_succ_self u) hu⟩)
        ((sortedGroup df a).get ⟨u + 1, hu⟩)) with h | h
  · exfalso
    apply hkeep
    unfold indicesToRemove
    rw [List.mem_flatMap]
    exact ⟨a, ha, fires_mem_groupRemovals hu h⟩
  · exact h

theorem arrival_le_departure_of_kept {df : FlightsDF} {a : String}
    (ha : a ∈ aircraftList (nonCancelledRows df))
    {u v : Nat} (hu : u < (sortedGroup df a).length) (hv : v < (sortedGroup df a).length)
    (huv : u < v)
    (hkeep : ((sortedGroup df a).get ⟨u, hu⟩).1 ∉ indicesToRemove df)
    {pa : Timestamp} (hpa : ((sortedGroup df a).get ⟨u, hu⟩).2.actualarrival = some pa)
    {qd : Timestamp} (hqd : ((sortedGroup df a).get ⟨v, hv⟩).2.actualdeparture = some qd) :
    pa.abs ≤ qd.abs := by
  have hu1 : u + 1 < (sortedGroup df a).length := lt_of_le_of_lt huv hv
  have hfire := not_fires_of_kept hu1 ha hkeep
  unfold overlapFires at hfire
  rw [hpa] at hfire
  rcases hnd : ((sortedGroup df a).get ⟨u + 1, hu1⟩).2.actualdeparture with _ | nd
  · -- the next departure is missing, so all later departures are missing
    exfalso
    rcases Nat.eq_or_lt_of_le (Nat.succ_le_of_lt huv) with he | hlt
    · rw [show (⟨u + 1, hu1⟩ : Fin _) = ⟨v, hv⟩ from Fin.ext he] at hnd
      rw [hnd] at hqd
      exact Option.noConfusion hqd
    · have hs := (sorted_sortedGroup df a).rel_get_of_lt
        (show (⟨u + 1, hu1⟩ : Fin _) < ⟨v, hv⟩ from hlt)
      unfold depLe depVal at hs
      rw [hnd, hqd] at hs
      simp at hs
  · rw [hnd] at hfire
    have h1 : pa.abs ≤ nd.abs := by
      have := of_decide_eq_false hfire
      omega
    have h2 : nd.abs ≤ qd.abs := by
      rcases Nat.eq_or_lt_of_le (Nat.succ_le_of_lt huv) with he | hlt
      · rw [show (⟨u + 1, hu1⟩ : Fin _) = ⟨v, hv⟩ from Fin.ext he] at hnd
        rw [hnd] at hqd
        injection hqd with hq
        rw [hq]
      · have hs := (sorted_sortedGroup df a).rel_get_of_lt
          (show (⟨u + 1, hu1⟩ : Fin _) < ⟨v, hv⟩ from hlt)
        unfold depLe depVal at hs
        rw [hnd, hqd] at hs
        simp at hs
        exact hs
    exact le_trans h1 h2

/-- C3: after `check_rule_2_no_overlapping_flights` runs, no two
distinct remaining non-cancelled flights of the same aircraft have
overlapping [actual departure, actual arrival] intervals, even though
the rule performs a single adjacent-pair pass per aircraft over the
departure-sorted timeline without re-scanning after removals. -/
theorem rule2_no_overlap_invariant (df : FlightsDF)
    (_hidx : (df.map Prod.fst).Nodup) :
    ∀ p ∈ (check_rule_2_no_overlapping_flights df).1,
    ∀ q ∈ (check_rule_2_no_overlapping_flights df).1,
      p ≠ q → p.2.cancelled = false → q.2.cancelled = false →
      p.2.aircraftregistration = q.2.aircraftregistration →
      ¬ flightsOverlap p.2 q.2 := by
  intro p hp q hq hne hpc hqc hreg hov
  unfold check_rule_2_no_overlapping_flights at hp hq
  rw [List.mem_filter] at hp hq
  rcases hp with ⟨hpdf, hpk⟩
  rcases hq with ⟨hqdf, hqk⟩
  have hpk2 : p.1 ∉ indicesToRemove df := by simpa using hpk
  have hqk2 : q.1 ∉ indicesToRemove df := by simpa using hqk
  -- extract the four timestamps from the overlap
  rcases hfd : p.2.actualdeparture with _ | fd <;>
    rcases hfa : p.2.actualarrival with _ | fa <;>
    rcases hgd : q.2.actualdeparture with _ | gd <;>
    rcases hga : q.2.actualarrival with _ | ga <;>
    unfold flightsOverlap at hov <;> rw [hfd, hfa, hgd, hga] at hov <;> try exact hov
  -- both rows live in the same sorted aircraft group
  have hpg : p ∈ sortedGroup df p.2.aircraftregistration :=
    mem_sortedGroup_iff.mpr ⟨hpdf, hpc, rfl⟩
  have hqg : q ∈ sortedGroup df p.2.aircraftregistration :=
    mem_sortedGroup_iff.mpr ⟨hqdf, hqc, hreg.symm⟩
  have ha : p.2.aircraftregistration ∈ aircraftList (nonCancelledRows df) := by
    unfold aircraftList
    rw [List.mem_dedup, List.mem_map]
    refine ⟨p, ?_, rfl⟩
    unfold nonCancelledRows
    rw [List.mem_filter, hpc]
    exact ⟨hpdf, rfl⟩
  rcases List.mem_iff_get.mp hpg with ⟨⟨u, hu⟩, hgu⟩
  rcases List.mem_iff_get.mp hqg with ⟨⟨v, hv⟩, hgv⟩
  have huv : u ≠ v := by
    intro h
    apply hne
    rw [← hgu, ← hgv]
    congr 1
    exact Fin.ext h
  rcases Nat.lt_or_ge u v with hlt | hge
  · have hle := arrival_le_departure_of_kept ha hu hv hlt
      (by rw [hgu]; exact hpk2) (by rw [hgu]; exact hfa) (by rw [hgv]; exact hgd)
    have : max fd.abs gd.abs < max fd.abs gd.abs :=
      lt_of_lt_of_le hov (le_trans (min_le_left _ _) (le_trans hle (le_max_right _ _)))
    exact lt_irrefl _ this
  · have hvu : v < u := lt_of_le_of_ne hge (Ne.symm huv)
    have hle := arrival_le_departure_of_kept ha hv hu hvu
      (by rw [hgv]; exact hqk2) (by rw [hgv]; exact hga) (by rw [hgu]; exact hfd)
    have : max fd.abs gd.abs < max fd.abs gd.abs :=
      lt_of_lt_of_le hov (le_trans (min_le_right _ _) (le_trans hle (le_max_left _ _)))
    exact lt_irrefl _ this

/-- Witness for the BR-2 invariant theorem at a concrete input. -/
theorem rule2_no_overlap_invariant_witness :
    ((([(0, disjA), (1, disjB)] : FlightsDF).map Prod.fst).Nodup ∧
      (0, disjA) ∈ (check_rule_2_no_overlapping_flights [(0, disjA), (1, disjB)]).1 ∧
      (1, disjB) ∈ (check_rule_2_no_overlapping_flights [(0, disjA), (1, disjB)]).1) ∧
    ¬ flightsOverlap disjA disjB := by
  refine ⟨⟨by decide, by decide, by decide⟩, ?_⟩
  exact rule2_no_overlap_invariant [(0, disjA), (1, disjB)] (by decide)
    (0, disjA) (by decide) (1, disjB) (by decide) (by decide) rfl rfl rfl

/-- C4 counterexample: flights A and B form an adjacent overlapping
pair (A earlier, so A is removed), but the later flight B is NOT
retained — it is removed as well, because B is itself the earlier
flight of the next overlapping adjacent pair (B, C).  This refutes the
claim that for each adjacent overlapping pair exactly the earlier
flight is removed while the later flight is retained. -/
theorem overlap_removal_retention_fails :
    sortedGroup chainDF "XY-CCC" = [(0, chainA), (1, chainB), (2, chainC)] ∧
    overlapFires (0, chainA) (1, chainB) = true ∧
    (check_rule_2_no_overlapping_flights chainDF).1 = [(2, chainC)] ∧
    (1, chainB) ∉ (check_rule_2_no_overlapping_flights chainDF).1 := by
  refine ⟨by decide, by decide, by decide, by decide⟩

theorem nodup_sortedGroup {df : FlightsDF} (hidx : (df.map Prod.fst).Nodup)
    (a : String) : (sortedGroup df a).Nodup := by
  have h1 : df.Nodup := hidx.of_map
  have h2 : ((nonCancelledRows df).filter
      fun p => p.2.aircraftregistration == a).Nodup :=
    List.Nodup.filter _ (List.Nodup.filter _ h1)
  exact ((List.perm_insertionSort depLe _).nodup_iff).mpr h2

theorem find?_idx_eq {df : FlightsDF} (hidx : (df.map Prod.fst).Nodup)
    {p : Nat × Flight} (hp : p ∈ df) :
    df.find? (fun q => q.1 == p.1) = some p := by
  induction df with
  | nil => exact absurd hp (List.not_mem_nil p)
  | cons h t ih =>
    rw [List.find?_cons]
    by_cases hh : h.1 == p.1
    · rw [hh]
      have hhp : h = p := by
        rcases List.mem_cons.mp hp with he | ht
        · rw [he]
        · exact List.inj_on_of_nodup_map hidx (List.mem_cons_self h t)
            (List.mem_cons_of_mem h ht) (by simpa using hh)
      rw [hhp]
    · rw [Bool.not_eq_true] at hh
      rw [hh]
      have hpt : p ∈ t := by
        rcases List.mem_cons.mp hp with he | ht
        · exfalso
          rw [he] at hh
          simp at hh
        · exact ht
      exact ih (by rw [List.map_cons] at hidx; exact hidx.of_cons) hpt

theorem mem_zip_tail {g : FlightsDF} {c : (Nat × Flight) × (Nat × Flight)}
    (hc : c ∈ g.zip g.tail) :
    ∃ (w : Nat) (hw1 : w + 1 < g.length),
      c.1 = g.get ⟨w, lt_trans (Nat.lt_succ_self w) hw1⟩ ∧
      c.2 = g.get ⟨w + 1, hw1⟩ := by
  rcases List.mem_iff_get.mp hc with ⟨⟨n, hn⟩, hget⟩
  have hlen : n + 1 < g.length := by
    rw [List.length_zip, List.length_tail] at hn
    omega
  have htl : n < g.tail.length := by rw [List.length_tail]; omega
  refine ⟨n, hlen, ?_, ?_⟩
  · rw [← hget, List.get_eq_getElem, List.getElem_zip, List.get_eq_getElem]
  · rw [← hget, List.get_eq_getElem, List.getElem_zip, List.get_eq_getElem,
      List.getElem_tail]

theorem mem_groupRemovals_iff {g : FlightsDF} {i : Nat} :
    i ∈ groupRemovals g ↔
      ∃ c ∈ g.zip g.tail, overlapFires c.1 c.2 = true ∧ c.1.1 = i := by
  unfold groupRemovals
  rw [List.mem_filterMap]
  constructor
  · rintro ⟨c, hc, hsome⟩
    by_cases hf : overlapFires c.1 c.2 = true
    · rw [if_pos hf] at hsome
      exact ⟨c, hc, hf, Option.some_injective _ hsome⟩
    · rw [if_neg hf] at hsome
      exact Option.noConfusion hsome
  · rintro ⟨c, hc, hf, hi⟩
    exact ⟨c, hc, by rw [if_pos hf, hi]⟩

/-- C4 (amended): for each adjacent pair of same-aircraft non-cancelled
flights on the departure-sorted timeline whose earlier flight's actual
arrival exceeds the later flight's actual departure, the earlier
flight's row is removed from the record set and its full original
record is appended to the overlapping-flights audit log; the later
flight is retained unless it is itself the earlier flight of an
overlapping adjacent pair. -/
theorem rule2_overlap_removal (df : FlightsDF) (hidx : (df.map Prod.fst).Nodup)
    (a : String) (u : Nat) (hu : u + 1 < (sortedGroup df a).length)
    (hf : overlapFires ((sortedGroup df a).get ⟨u, lt_trans (Nat.lt_succ_self u) hu⟩)
      ((sortedGroup df a).get ⟨u + 1, hu⟩) = true) :
    ((sortedGroup df a).get ⟨u, lt_trans (Nat.lt_succ_self u) hu⟩).1 ∈ indicesToRemove df ∧
    (∀ r ∈ (check_rule_2_no_overlapping_flights df).1,
      r.1 ≠ ((sortedGroup df a).get ⟨u, lt_trans (Nat.lt_succ_self u) hu⟩).1) ∧
    ((sortedGroup df a).get ⟨u, lt_trans (Nat.lt_succ_self u) hu⟩).2 ∈
      (check_rule_2_no_overlapping_flights df).2 ∧
    ((∀ h2 : u + 2 < (sortedGroup df a).length,
        overlapFires ((sortedGroup df a).get ⟨u + 1, hu⟩)
          ((sortedGroup df a).get ⟨u + 2, h2⟩) = false) →
      (sortedGroup df a).get ⟨u + 1, hu⟩ ∈ (check_rule_2_no_overlapping_flights df).1) := by
  have hu0 : u < (sortedGroup df a).length := lt_trans (Nat.lt_succ_self u) hu
  have hrow0 : (sortedGroup df a).get ⟨u, hu0⟩ ∈ sortedGroup df a := List.get_mem _ _ _
  have hrow1 : (sortedGroup df a).get ⟨u + 1, hu⟩ ∈ sortedGroup df a := List.get_mem _ _ _
  rcases mem_sortedGroup_iff.mp hrow0 with ⟨hdf0, hcanc0, hreg0⟩
  rcases mem_sortedGroup_iff.mp hrow1 with ⟨hdf1, hcanc1, hreg1⟩
  have ha : a ∈ aircraftList (nonCancelledRows df) := by
    unfold aircraftList
    rw [List.mem_dedup, List.mem_map]
    refine ⟨(sortedGroup df a).get ⟨u, hu0⟩, ?_, hreg0⟩
    unfold nonCancelledRows
    rw [List.mem_filter, hcanc0]
    exact ⟨hdf0, rfl⟩
  have hpart1 : ((sortedGroup df a).get ⟨u, hu0⟩).1 ∈ indicesToRemove df := by
    unfold indicesToRemove
    rw [List.mem_flatMap]
    exact ⟨a, ha, fires_mem_groupRemovals hu hf⟩
  refine ⟨hpart1, ?_, ?_, ?_⟩
  · intro r hr heq
    unfold check_rule_2_no_overlapping_flights at hr
    rw [List.mem_filter] at hr
    have : r.1 ∉ indicesToRemove df := by simpa using hr.2
    rw [heq] at this
    exact this hpart1
  · unfold check_rule_2_no_overlapping_flights
    rw [List.mem_filterMap]
    refine ⟨((sortedGroup df a).get ⟨u, hu0⟩).1, hpart1, ?_⟩
    rw [find?_idx_eq hidx hdf0]
    rfl
  · intro hnext
    unfold check_rule_2_no_overlapping_flights
    rw [List.mem_filter]
    refine ⟨hdf1, ?_⟩
    rw [Bool.not_eq_true']
    rw [← Bool.not_eq_true]
    intro hcont
    have hmem : ((sortedGroup df a).get ⟨u + 1, hu⟩).1 ∈ indicesToRemove df := by
      simpa using hcont
    unfold indicesToRemove at hmem
    rw [List.mem_flatMap] at hmem
    rcases hmem with ⟨a2, _, hgr⟩
    rcases mem_groupRemovals_iff.mp hgr with ⟨c, hczip, hcf, hc1⟩
    rcases mem_zip_tail hczip with ⟨w, hw1, hcfst, hcsnd⟩
    have hc1df : c.1 ∈ df := by
      have : c.1 ∈ sortedGroup df a2 := by rw [hcfst]; exact List.get_mem _ _ _
      exact (mem_sortedGroup_iff.mp this).1
    have hceq : c.1 = (sortedGroup df a).get ⟨u + 1, hu⟩ :=
      List.inj_on_of_nodup_map hidx hc1df hdf1 hc1
    have hrega2 : a2 = a := by
      have hmem2 : c.1 ∈ sortedGroup df a2 := by rw [hcfst]; exact List.get_mem _ _ _
      have := (mem_sortedGroup_iff.mp hmem2).2.2
      rw [hceq] at this
      rw [← this, hreg1]
    subst hrega2
    have hgets : (sortedGroup df a2).get ⟨w, lt_trans (Nat.lt_succ_self w) hw1⟩ =
        (sortedGroup df a2).get ⟨u + 1, hu⟩ := by
      rw [← hcfst]
      exact hceq
    have hfin := ((nodup_sortedGroup hidx a2).get_inj_iff).mp hgets
    have hw : w = u + 1 := congrArg Fin.val hfin
    subst hw
    have hfires2 := hnext hw1
    rw [hceq] at hcf
    rw [hcsnd] at hcf
    rw [hfires2] at hcf
    exact Bool.noConfusion hcf

/-- Witness for the amended C4 theorem at a concrete input. -/
theorem rule2_overlap_removal_witness :
    ((chainDF.map Prod.fst).Nodup ∧
      overlapFires (0, chainA) (1, chainB) = true) ∧
    (0 : Nat) ∈ indicesToRemove chainDF ∧
    chainA ∈ (check_rule_2_no_overlapping_flights chainDF).2 := by
  have hg : (sortedGroup chainDF "XY-CCC").get
      ⟨0, lt_trans (Nat.lt_succ_self 0) (by decide)⟩ = (0, chainA) := by decide
  have h := rule2_overlap_removal chainDF (by decide) "XY-CCC" 0 (by decide) (by decide)
  refine ⟨⟨by decide, by decide⟩, ?_, ?_⟩
  · have h1 := h.1
    rw [hg] at h1
    exact h1
  · have h3 := h.2.2.1
    rw [hg] at h3
    exact h3

/-- C5: derived delay minutes equal the arrival difference in minutes
exactly when the flight is not cancelled and the difference lies
strictly between 15 and 360 minutes, and zero otherwise; the delay flag
is 1 exactly when the delay is positive.  At the boundaries: 10 minutes
late counts 0, 20 minutes late counts 20, 400 minutes late counts 0. -/
theorem delay_derivation :
    (∀ (f : Flight) (arr : Timestamp), f.actualarrival = some arr →
      f.DELAY =
        if f.cancelled = false ∧ 15 < ((arr.abs - f.scheduledarrival.abs : ℤ) : ℚ) / 60 ∧
            ((arr.abs - f.scheduledarrival.abs : ℤ) : ℚ) / 60 < 360 then
          ((arr.abs - f.scheduledarrival.abs : ℤ) : ℚ) / 60
        else 0) ∧
    (∀ f : Flight, f.actualarrival = none → f.DELAY = 0) ∧
    (∀ f : Flight, f.DY = 1 ↔ 0 < f.DELAY) ∧
    (lateFlight 600).DELAY = 0 ∧ (lateFlight 600).DY = 0 ∧
    (lateFlight 1200).DELAY = 20 ∧ (lateFlight 1200).DY = 1 ∧
    (lateFlight 24000).DELAY = 0 ∧ (lateFlight 24000).DY = 0 := by
  refine ⟨?_, ?_, ?_,
    by norm_num [lateFlight, Flight.DELAY],
    by norm_num [Flight.DY, lateFlight, Flight.DELAY],
    by norm_num [lateFlight, Flight.DELAY],
    by norm_num [Flight.DY, lateFlight, Flight.DELAY],
    by norm_num [lateFlight, Flight.DELAY],
    by norm_num [Flight.DY, lateFlight, Flight.DELAY]⟩
  · intro f arr ha
    unfold Flight.DELAY
    rw [ha]
  · intro f ha
    unfold Flight.DELAY
    rw [ha]
  · intro f
    unfold Flight.DY
    split_ifs with h
    · simp [h]
    · simp [h]

/-- Witness for the delay-derivation theorem at a concrete input. -/
theorem delay_derivation_witness :
    (lateFlight 1200).actualarrival = some ⟨1200, ⟨2023, 4, 1⟩⟩ ∧
    (lateFlight 1200).DELAY =
      if (lateFlight 1200).cancelled = false ∧
          15 < (((1200 : ℤ) - (lateFlight 1200).scheduledarrival.abs : ℤ) : ℚ) / 60 ∧
          (((1200 : ℤ) - (lateFlight 1200).scheduledarrival.abs : ℤ) : ℚ) / 60 < 360 then
        (((1200 : ℤ) - (lateFlight 1200).scheduledarrival.abs : ℤ) : ℚ) / 60
      else 0 :=
  ⟨rfl, delay_derivation.1 (lateFlight 1200) ⟨1200, ⟨2023, 4, 1⟩⟩ rfl⟩

/-- C7: the out-of-service duration is attributed entirely to TOSS when
programmed and entirely to TOSU when not, never split; a 2.5-day
scheduled record aggregates to ADOSS = 2.5 and ADOSU = 0, and an
unscheduled one to ADOSS = 0 and ADOSU = 2.5. -/
theorem maintenance_day_split :
    (∀ m : Maint, m.programmed = true → m.TOSS = m.diffDays ∧ m.TOSU = 0) ∧
    (∀ m : Maint, m.programmed = false → m.TOSS = 0 ∧ m.TOSU = m.diffDays) ∧
    transform_maint [schedMaint] =
      [{ date := ⟨2023, 5, 1⟩, aircraftregistration := "XY-EEE",
         ADOSS := 5 / 2, ADOSU := 0 }] ∧
    transform_maint [unschedMaint] =
      [{ date := ⟨2023, 5, 1⟩, aircraftregistration := "XY-EEE",
         ADOSS := 0, ADOSU := 5 / 2 }] := by
  refine ⟨?_, ?_, ?_, ?_⟩
  · intro m hm
    unfold Maint.TOSS Maint.TOSU
    rw [hm]
    exact ⟨rfl, rfl⟩
  · intro m hm
    unfold Maint.TOSS Maint.TOSU
    rw [hm]
    exact ⟨rfl, rfl⟩
  · have h1 : transform_maint [schedMaint] =
        [{ date := ⟨2023, 5, 1⟩, aircraftregistration := "XY-EEE",
           ADOSS := Maint.TOSS schedMaint + 0,
           ADOSU := Maint.TOSU schedMaint + 0 }] := rfl
    rw [h1]
    norm_num [Maint.TOSS, Maint.TOSU, Maint.diffDays, schedMaint]
  · have h1 : transform_maint [unschedMaint] =
        [{ date := ⟨2023, 5, 1⟩, aircraftregistration := "XY-EEE",
           ADOSS := Maint.TOSS unschedMaint + 0,
           ADOSU := Maint.TOSU unschedMaint + 0 }] := rfl
    rw [h1]
    norm_num [Maint.TOSS, Maint.TOSU, Maint.diffDays, unschedMaint, schedMaint]

/-- Witness for the maintenance-split theorem at a concrete input. -/
theorem maintenance_day_split_witness :
    schedMaint.programmed = true ∧
    (schedMaint.TOSS = schedMaint.diffDays ∧ schedMaint.TOSU = 0) :=
  ⟨rfl, maintenance_day_split.1 schedMaint rfl⟩

/-- C9: after `check_rule_3_aircraft_exists` runs, every remaining
report references a registration of the aircraft dimension; every
report with an unknown registration is removed and appended to the
invalid-reports log; and no report with a known registration is removed
(its multiplicity is preserved). -/
theorem rule3_referential_integrity (reports : List Report) (aircrafts : List Aircraft) :
    (∀ r ∈ (check_rule_3_aircraft_exists reports aircrafts).1,
      r.aircraftregistration ∈ aircrafts.map Aircraft.aircraftregistration) ∧
    (∀ r ∈ reports,
      r.aircraftregistration ∉ aircrafts.map Aircraft.aircraftregistration →
      r ∈ (check_rule_3_aircraft_exists reports aircrafts).2 ∧
      r ∉ (check_rule_3_aircraft_exists reports aircrafts).1) ∧
    (∀ r : Report,
      r.aircraftregistration ∈ aircrafts.map Aircraft.aircraftregistration →
      (check_rule_3_aircraft_exists reports aircrafts).1.count r = reports.count r) := by
  refine ⟨?_, ?_, ?_⟩
  · intro r hr
    unfold check_rule_3_aircraft_exists at hr
    rw [List.mem_filter] at hr
    simpa using hr.2
  · intro r hr hnot
    unfold check_rule_3_aircraft_exists
    constructor
    · rw [List.mem_filter]
      refine ⟨hr, ?_⟩
      simpa using hnot
    · rw [List.mem_filter]
      intro hmem
      exact hnot (by simpa using hmem.2)
  · intro r hmem
    unfold check_rule_3_aircraft_exists
    exact List.count_filter (by simpa using hmem)

/-- Witness for the BR-3 theorem at a concrete input. -/
theorem rule3_referential_integrity_witness :
    (invalidReport ∈ [validReport, invalidReport] ∧
      invalidReport.aircraftregistration ∉
        [wAircraft].map Aircraft.aircraftregistration) ∧
    (invalidReport ∈
        (check_rule_3_aircraft_exists [validReport, invalidReport] [wAircraft]).2 ∧
      invalidReport ∉
        (check_rule_3_aircraft_exists [validReport, invalidReport] [wAircraft]).1) := by
  refine ⟨⟨by decide, by decide⟩, ?_⟩
  exact (rule3_referential_integrity [validReport, invalidReport] [wAircraft]).2.1
    invalidReport (by decide) (by decide)

section Join

variable {A B K : Type} [DecidableEq K] {ka : A → K} {kb : B → K}

theorem outerJoin_cases {ls : List A} {rs : List B}
    {x : K × Option A × Option B} (hx : x ∈ outerJoin ka kb ls rs) :
    (∃ l ∈ ls, x = (ka l, some l, none) ∧ ∀ r ∈ rs, ¬kb r = ka l) ∨
    (∃ l ∈ ls, ∃ r ∈ rs, kb r = ka l ∧ x = (ka l, some l, some r)) ∨
    (∃ r ∈ rs, x = (kb r, none, some r) ∧ ∀ l ∈ ls, ¬ka l = kb r) := by
  unfold outerJoin at hx
  rcases List.mem_append.mp hx with h | h
  · rcases List.mem_flatMap.mp h with ⟨l, hl, hxl⟩
    by_cases hemp : ((rs.filter fun r => kb r == ka l).isEmpty : Bool)
    · rw [if_pos hemp] at hxl
      left
      refine ⟨l, hl, List.mem_singleton.mp hxl, ?_⟩
      intro r hr hkr
      have := List.filter_eq_nil_iff.mp (List.isEmpty_iff.mp hemp) r hr
      simp [hkr] at this
    · rw [if_neg hemp] at hxl
      right; left
      rcases List.mem_map.mp hxl with ⟨r, hrf, hxr⟩
      rw [List.mem_filter] at hrf
      exact ⟨l, hl, r, hrf.1, by simpa using hrf.2, hxr.symm⟩
  · right; right
    rcases List.mem_map.mp h with ⟨r, hrf, hxr⟩
    rw [List.mem_filter] at hrf
    refine ⟨r, hrf.1, hxr.symm, ?_⟩
    have h2 : ∀ l2 ∈ ls, ¬(ka l2 == kb r) = true := by simpa using hrf.2
    intro l hl hkl
    exact h2 l hl (by simp [hkl])

theorem outerJoin_key_mem {ls : List A} {rs : List B}
    {x : K × Option A × Option B} (hx : x ∈ outerJoin ka kb ls rs) :
    x.1 ∈ ls.map ka ∨ x.1 ∈ rs.map kb := by
  rcases outerJoin_cases hx with ⟨l, hl, hxe, _⟩ | ⟨l, hl, r, _, _, hxe⟩ | ⟨r, hr, hxe, _⟩
  · exact Or.inl (by rw [hxe]; exact List.mem_map_of_mem ka hl)
  · exact Or.inl (by rw [hxe]; exact List.mem_map_of_mem ka hl)
  · exact Or.inr (by rw [hxe]; exact List.mem_map_of_mem kb hr)

theorem outerJoin_left_some {ls : List A} {rs : List B}
    {x : K × Option A × Option B} (hx : x ∈ outerJoin ka kb ls rs)
    {l : A} (h : x.2.1 = some l) : l ∈ ls ∧ x.1 = ka l := by
  rcases outerJoin_cases hx with ⟨l2, hl, hxe, _⟩ | ⟨l2, hl, r, _, _, hxe⟩ | ⟨r, _, hxe, _⟩
  · rw [hxe] at h ⊢
    cases h
    exact ⟨hl, rfl⟩
  · rw [hxe] at h ⊢
    cases h
    exact ⟨hl, rfl⟩
  · rw [hxe] at h
    exact Option.noConfusion h

theorem outerJoin_right_some {ls : List A} {rs : List B}
    {x : K × Option A × Option B} (hx : x ∈ outerJoin ka kb ls rs)
    {r : B} (h : x.2.2 = some r) : r ∈ rs ∧ x.1 = kb r := by
  rcases outerJoin_cases hx with ⟨l2, _, hxe, _⟩ | ⟨l2, _, r2, hr2, hke, hxe⟩ | ⟨r2, hr2, hxe, _⟩
  · rw [hxe] at h
    exact Option.noConfusion h
  · rw [hxe] at h ⊢
    cases h
    exact ⟨hr2, hke.symm⟩
  · rw [hxe] at h ⊢
    cases h
    exact ⟨hr2, rfl⟩

theorem outerJoin_left_none {ls : List A} {rs : List B}
    {x : K × Option A × Option B} (hx : x ∈ outerJoin ka kb ls rs)
    (hk : x.1 ∉ ls.map ka) : x.2.1 = none := by
  rcases hh : x.2.1 with _ | l
  · rfl
  · exact absurd ((outerJoin_left_some hx hh).2 ▸
      List.mem_map_of_mem ka (outerJoin_left_some hx hh).1) hk

theorem outerJoin_right_none {ls : List A} {rs : List B}
    {x : K × Option A × Option B} (hx : x ∈ outerJoin ka kb ls rs)
    (hk : x.1 ∉ rs.map kb) : x.2.2 = none := by
  rcases hh : x.2.2 with _ | r
  · rfl
  · exact absurd ((outerJoin_right_some hx hh).2 ▸
      List.mem_map_of_mem kb (outerJoin_right_some hx hh).1) hk

theorem filter_singleton_of_nodup {rs : List B} (hr : (rs.map kb).Nodup) (c : K)
    (hne : (rs.filter fun r => kb r == c) ≠ []) :
    ∃ r0, (rs.filter fun r => kb r == c) = [r0] := by
  apply List.length_eq_one.mp
  have h1 : (rs.filter fun r => kb r == c).length = rs.countP fun r => kb r == c :=
    (List.countP_eq_length_filter _ _).symm
  have h2 : rs.countP (fun r => kb r == c) = (rs.map kb).count c := by
    rw [List.count_eq_countP, List.countP_map]
    rfl
  have hle : (rs.filter fun r => kb r == c).length ≤ 1 := by
    rw [h1, h2]
    exact List.nodup_iff_count_le_one.mp hr c
  have hge : 1 ≤ (rs.filter fun r => kb r == c).length :=
    Nat.pos_of_ne_zero fun h0 => hne (List.length_eq_zero.mp h0)
  omega

theorem outerJoin_countP_left {rs : List B} (hr : (rs.map kb).Nodup)
    (k : K) (ls : List A) :
    ((ls.flatMap fun l =>
      if (rs.filter fun r => kb r == ka l).isEmpty then [(ka l, some l, (none : Option B))]
      else (rs.filter fun r => kb r == ka l).map fun r => (ka l, some l, some r)).countP
        fun x => x.1 == k) = (ls.map ka).count k := by
  induction ls with
  | nil => simp
  | cons a t ih =>
    rw [List.flatMap_cons, List.countP_append, ih, List.map_cons, List.count_cons]
    have hblock : ((if (rs.filter fun r => kb r == ka a).isEmpty then
        [(ka a, some a, (none : Option B))]
        else (rs.filter fun r => kb r == ka a).map fun r => (ka a, some a, some r)).countP
          fun x => x.1 == k) = if (ka a == k) = true then 1 else 0 := by
      by_cases hemp : ((rs.filter fun r => kb r == ka a).isEmpty : Bool)
      · rw [if_pos hemp]
        simp [List.countP_cons]
      · rw [if_neg hemp]
        rcases filter_singleton_of_nodup hr (ka a)
            (fun h0 => hemp (List.isEmpty_iff.mpr h0)) with ⟨r0, hr0⟩
        rw [hr0]
        simp [List.countP_cons]
    rw [hblock]
    omega

theorem outerJoin_countP {ls : List A} {rs : List B}
    (hl : (ls.map ka).Nodup) (hr : (rs.map kb).Nodup) (k : K) :
    (outerJoin ka kb ls rs).countP (fun x => x.1 == k) =
      if k ∈ ls.map ka ∨ k ∈ rs.map kb then 1 else 0 := by
  unfold outerJoin
  rw [List.countP_append, outerJoin_countP_left hr k ls]
  have hmapped : (((rs.filter fun r => !(ls.any fun l => ka l == kb r)).map fun r =>
      ((kb r : K), (none : Option A), some r)).countP fun x => x.1 == k) =
      rs.countP fun r => (kb r == k) && !(ls.any fun l => ka l == kb r) := by
    rw [List.countP_map, List.countP_filter]
    rfl
  rw [hmapped]
  by_cases hk : k ∈ ls.map ka
  · have hz : (rs.countP fun r => (kb r == k) && !(ls.any fun l => ka l == kb r)) = 0 := by
      rw [List.countP_eq_zero]
      intro r _ hcontra
      rw [Bool.and_eq_true] at hcontra
      rcases hcontra with ⟨hkr, hany⟩
      rcases List.mem_map.mp hk with ⟨l, hl, hkl⟩
      have : (ls.any fun l => ka l == kb r) = true :=
        List.any_eq_true.mpr ⟨l, hl, by simp [hkl, (by simpa using hkr : kb r = k)]⟩
      rw [this] at hany
      exact Bool.noConfusion hany
    rw [hz, List.count_eq_one_of_mem hl hk, if_pos (Or.inl hk)]
  · rw [List.count_eq_zero_of_not_mem hk]
    by_cases hk2 : k ∈ rs.map kb
    · have hcongr : (rs.countP fun r => (kb r == k) && !(ls.any fun l => ka l == kb r)) =
          rs.countP fun r => kb r == k := by
        apply List.countP_congr
        intro r _
        constructor
        · intro h
          rw [Bool.and_eq_true] at h
          exact h.1
        · intro h
          rw [Bool.and_eq_true]
          refine ⟨h, ?_⟩
          have hany : (ls.any fun l => ka l == kb r) = false := by
            rw [List.any_eq_false]
            intro l hl hcon
            apply hk
            rw [show k = ka l by
              have h1 : kb r = k := by simpa using h
              have h2 : ka l = kb r := by simpa using hcon
              rw [← h1, h2]]
            exact List.mem_map_of_mem ka hl
          rw [hany]
          rfl
      rw [hcongr]
      have : rs.countP (fun r => kb r == k) = (rs.map kb).count k := by
        rw [List.count_eq_countP, List.countP_map]
        rfl
      rw [this, List.count_eq_one_of_mem hr hk2, if_pos (Or.inr hk2)]
    · have hz : (rs.countP fun r => (kb r == k) && !(ls.any fun l => ka l == kb r)) = 0 := by
        rw [List.countP_eq_zero]
        intro r hrs hcontra
        rw [Bool.and_eq_true] at hcontra
        apply hk2
        rw [show k = kb r by simpa using (Eq.symm (of_decide_eq_true hcontra.1))]
        exact List.mem_map_of_mem kb hrs
      rw [hz, if_neg (by push_neg; exact ⟨hk, hk2⟩)]

theorem outerJoin_nodup_keys {ls : List A} {rs : List B}
    (hl : (ls.map ka).Nodup) (hr : (rs.map kb).Nodup) :
    ((outerJoin ka kb ls rs).map fun x => x.1).Nodup := by
  rw [List.nodup_iff_count_le_one]
  intro k
  rw [List.count_eq_countP, List.countP_map]
  have hco : ((fun x => x == k) ∘ fun x : K × Option A × Option B => x.1) =
      fun x : K × Option A × Option B => x.1 == k := rfl
  rw [hco, outerJoin_countP hl hr k]
  split <;> omega

theorem outerJoin_key_mem_of_left {ls : List A} {rs : List B}
    {k : K} (h : k ∈ ls.map ka) :
    k ∈ (outerJoin ka kb ls rs).map (fun x => x.1) := by
  rcases List.mem_map.mp h with ⟨l, hl, hk⟩
  unfold outerJoin
  by_cases hemp : ((rs.filter fun r => kb r == ka l).isEmpty : Bool)
  · refine List.mem_map.mpr ⟨(ka l, some l, none), ?_, hk⟩
    rw [List.mem_append]
    left
    refine List.mem_flatMap.mpr ⟨l, hl, ?_⟩
    rw [if_pos hemp]
    exact List.mem_singleton.mpr rfl
  · rcases List.exists_mem_of_ne_nil _
        (fun h0 => hemp (List.isEmpty_iff.mpr h0)) with ⟨r0, hr0⟩
    refine List.mem_map.mpr ⟨(ka l, some l, some r0), ?_, hk⟩
    rw [List.mem_append]
    left
    refine List.mem_flatMap.mpr ⟨l, hl, ?_⟩
    rw [if_neg hemp]
    exact List.mem_map.mpr ⟨r0, hr0, rfl⟩

theorem outerJoin_key_mem_iff {ls : List A} {rs : List B} (k : K) :
    k ∈ (outerJoin ka kb ls rs).map (fun x => x.1) ↔
      k ∈ ls.map ka ∨ k ∈ rs.map kb := by
  constructor
  · intro h
    rcases List.mem_map.mp h with ⟨x, hx, hk⟩
    rw [← hk]
    exact outerJoin_key_mem hx
  · intro h
    rcases h with h | h
    · exact outerJoin_key_mem_of_left h
    · by_cases hka : k ∈ ls.map ka
      · exact outerJoin_key_mem_of_left hka
      · rcases List.mem_map.mp h with ⟨r, hr, hk⟩
        unfold outerJoin
        refine List.mem_map.mpr ⟨(kb r, none, some r), ?_, hk⟩
        rw [List.mem_append]
        right
        refine List.mem_map.mpr ⟨r, ?_, rfl⟩
        rw [List.mem_filter]
        refine ⟨hr, ?_⟩
        have hany : (ls.any fun l => ka l == kb r) = false := by
          rw [List.any_eq_false]
          intro l hl hcon
          apply hka
          rw [show k = ka l by
            have h2 : ka l = kb r := by simpa using hcon
            rw [h2, hk]]
          exact List.mem_map_of_mem ka hl
        rw [hany]
        rfl

theorem outerJoin_sum_left {rs : List B} (hr : (rs.map kb).Nodup) (m : A → ℚ)
    (ls : List A) :
    ((ls.flatMap fun l =>
      if (rs.filter fun r => kb r == ka l).isEmpty then [(ka l, some l, (none : Option B))]
      else (rs.filter fun r => kb r == ka l).map fun r => (ka l, some l, some r)).map
        fun x => (x.2.1.map m).getD 0).sum = (ls.map m).sum := by
  induction ls with
  | nil => simp
  | cons a t ih =>
    rw [List.flatMap_cons, List.map_append, List.sum_append, ih, List.map_cons,
      List.sum_cons]
    have hblock : ((if (rs.filter fun r => kb r == ka a).isEmpty then
        [(ka a, some a, (none : Option B))]
        else (rs.filter fun r => kb r == ka a).map fun r =>
          (ka a, some a, some r)).map fun x => (x.2.1.map m).getD 0).sum = m a := by
      by_cases hemp : ((rs.filter fun r => kb r == ka a).isEmpty : Bool)
      · rw [if_pos hemp]
        simp
      · rw [if_neg hemp]
        rcases filter_singleton_of_nodup hr (ka a)
            (fun h0 => hemp (List.isEmpty_iff.mpr h0)) with ⟨r0, hr0⟩
        rw [hr0]
        simp
    rw [hblock]

theorem outerJoin_sum {ls : List A} {rs : List B}
    (hr : (rs.map kb).Nodup) (m : A → ℚ) :
    ((outerJoin ka kb ls rs).map fun x => (x.2.1.map m).getD 0).sum = (ls.map m).sum := by
  unfold outerJoin
  rw [List.map_append, List.sum_append]
  have hright : (((rs.filter fun r => !(ls.any fun l => ka l == kb r)).map fun r =>
      ((kb r : K), (none : Option A), some r)).map fun x => (x.2.1.map m).getD 0).sum = 0 := by
    apply List.sum_eq_zero
    intro v hv
    rw [List.map_map] at hv
    rcases List.mem_map.mp hv with ⟨r, _, hvr⟩
    rw [← hvr]
    rfl
  rw [hright, add_zero, outerJoin_sum_left hr m ls]

end Join

theorem sum_map_add {α : Type} (f g : α → ℚ) (l : List α) :
    (l.map fun x => f x + g x).sum = (l.map f).sum + (l.map g).sum := by
  induction l with
  | nil => simp
  | cons a t ih =>
    rw [List.map_cons, List.sum_cons, ih, List.map_cons, List.sum_cons,
      List.map_cons, List.sum_cons]
    ring

theorem sum_ite_key {K : Type} [DecidableEq K] (keys : List K) (hnd : keys.Nodup)
    (c : K) (hc : c ∈ keys) (v : ℚ) :
    (keys.map fun k => if c = k then v else 0).sum = v := by
  induction keys with
  | nil => cases hc
  | cons a t ih =>
    rw [List.map_cons, List.sum_cons]
    by_cases hca : c = a
    · rw [if_pos hca]
      have hnotmem : c ∉ t := by
        rw [hca]
        exact (List.nodup_cons.mp hnd).1
      have hz : (t.map fun k => if c = k then v else 0).sum = 0 := by
        apply List.sum_eq_zero
        intro x hx
        rcases List.mem_map.mp hx with ⟨k, hk, hxk⟩
        rw [← hxk, if_neg fun he : c = k => hnotmem (he ▸ hk)]
      rw [hz, add_zero]
    · rw [if_neg hca]
      have hct : c ∈ t := by
        rcases List.mem_cons.mp hc with he | ht
        · exact absurd he hca
        · exact ht
      rw [ih (List.Nodup.of_cons hnd) hct, zero_add]

theorem sum_fiberwise_aux {α K : Type} [DecidableEq K] (key : α → K) (m : α → ℚ)
    (l : List α) (keys : List K) (hnd : keys.Nodup) (hcov : ∀ x ∈ l, key x ∈ keys) :
    (keys.map fun c => ((l.filter fun x => decide (key x = c)).map m).sum).sum =
      (l.map m).sum := by
  induction l with
  | nil => simp
  | cons a t ih =>
    have hstep : ∀ c ∈ keys,
        (((a :: t).filter fun x => decide (key x = c)).map m).sum =
        (if key a = c then m a else 0) +
          ((t.filter fun x => decide (key x = c)).map m).sum := by
      intro c _
      rw [List.filter_cons]
      by_cases h : key a = c
      · rw [if_pos (by simp [h]), if_pos h, List.map_cons, List.sum_cons]
      · rw [if_neg (by simp [h]), if_neg h, zero_add]
    rw [List.map_congr_left hstep, sum_map_add, sum_ite_key keys hnd (key a)
      (hcov a (List.mem_cons_self a t)) (m a),
      ih fun x hx => hcov x (List.mem_cons_of_mem a hx), List.map_cons, List.sum_cons]

theorem sum_fiberwise {α K : Type} [DecidableEq K] (key : α → K) (m : α → ℚ)
    (l : List α) :
    (((l.map key).dedup).map fun c =>
      ((l.filter fun x => decide (key x = c)).map m).sum).sum = (l.map m).sum :=
  sum_fiberwise_aux key m l _ (List.nodup_dedup _)
    fun x hx => List.mem_dedup.mpr (List.mem_map_of_mem key hx)

theorem groupSum_map_key {α K β : Type} [DecidableEq K] (key : α → K)
    (mk : K → List α → β) (outKey : β → K)
    (h : ∀ c fiber, outKey (mk c fiber) = c) (l : List α) :
    (groupSum key mk l).map outKey = (l.map key).dedup := by
  unfold groupSum
  rw [List.map_map]
  have hco : (outKey ∘ fun c => mk c (l.filter fun x => decide (key x = c))) = id :=
    funext fun c => h c _
  rw [hco, List.map_id]

theorem groupSum_nodup_keys {α K β : Type} [DecidableEq K] (key : α → K)
    (mk : K → List α → β) (outKey : β → K)
    (h : ∀ c fiber, outKey (mk c fiber) = c) (l : List α) :
    ((groupSum key mk l).map outKey).Nodup := by
  rw [groupSum_map_key key mk outKey h l]
  exact List.nodup_dedup _

theorem map_key_transform_maint (maint : List Maint) :
    ((transform_maint maint).map MRow.key).Nodup := by
  unfold transform_maint
  apply groupSum_nodup_keys
  intro c fiber
  rfl

theorem map_key_techProj (aggF : List FRow) (tech : List TRow) :
    ((techProj aggF tech).map TProj.key).Nodup := by
  unfold techProj
  apply groupSum_nodup_keys
  intro c fiber
  rfl

theorem yearFilteredFlights_eq_self (aggF : List FRow) :
    yearFilteredFlights aggF = aggF := by
  apply List.filter_eq_self.mpr
  intro r hr
  have hm : r.date.year ∈ validYears aggF := by
    unfold validYears
    exact List.mem_dedup.mpr (List.mem_map_of_mem (fun q : FRow => q.date.year) hr)
  exact List.elem_eq_true_of_mem hm

/-- C8: the sum of `flighthours` over the daily aircraft stats fact
table equals the sum of the per-flight derived flight hours over the
cleaned flight set — grouping by (date, aircraft) and the outer joins
neither lose nor duplicate flight hours. -/
theorem flighthours_conservation (flights : List Flight) (maint : List Maint)
    (tech : List TRow) :
    (((merge_flights_maint_log (transform_flights flights) (transform_maint maint)
        tech).2).map fun r => r.flighthours).sum =
      (flights.map Flight.flighthours).sum := by
  have hMnodup : ((yearFilteredMaint (transform_flights flights)
      (transform_maint maint)).map MRow.key).Nodup :=
    (map_key_transform_maint maint).sublist
      (List.Sublist.map MRow.key (List.filter_sublist _))
  have hTnodup : ((techProj (transform_flights flights) tech).map TProj.key).Nodup :=
    map_key_techProj _ tech
  unfold merge_flights_maint_log dailyStats
  rw [List.map_map]
  have hfun : ((fun r : DRow => r.flighthours) ∘ fillDaily) =
      fun x : AggKey × Option (AggKey × Option FRow × Option TProj) × Option MRow =>
        (x.2.1.map fun y : AggKey × Option FRow × Option TProj =>
          (y.2.1.map FRow.flighthours).getD 0).getD 0 := by
    funext x
    rcases x with ⟨k, o1, o2⟩
    rcases o1 with _ | y
    · rfl
    · rcases y with ⟨k2, of, ot⟩
      rcases of with _ | f
      · rfl
      · rfl
  rw [hfun]
  unfold merged2
  rw [outerJoin_sum hMnodup]
  unfold merged1
  rw [outerJoin_sum hTnodup]
  rw [yearFilteredFlights_eq_self]
  unfold transform_flights groupSum
  rw [List.map_map]
  exact sum_fiberwise _ Flight.flighthours flights

/-- C1: for every (date, aircraft) key present in at least one of the
three aggregated inputs to the reconciler (after year filtering), the
daily aircraft stats table contains exactly one row with that key, and
every measure column contributed by an input lacking the key equals
exactly 0 (the embedding's measure fields are total, so no null can
remain after the fill). -/
theorem zero_fill_completeness (aggF : List FRow) (aggM : List MRow) (tech : List TRow)
    (hF : (aggF.map FRow.key).Nodup) (hM : (aggM.map MRow.key).Nodup) (k : AggKey)
    (hk : k ∈ (yearFilteredFlights aggF).map FRow.key ∨
      k ∈ (yearFilteredMaint aggF aggM).map MRow.key ∨
      k ∈ (techProj aggF tech).map TProj.key) :
    ((merge_flights_maint_log aggF aggM tech).2.countP fun r => decide (DRow.key r = k)) = 1 ∧
    ∀ r ∈ (merge_flights_maint_log aggF aggM tech).2, DRow.key r = k →
      (k ∉ (yearFilteredFlights aggF).map FRow.key →
        r.flighthours = 0 ∧ r.takeoffs = 0 ∧ r.delays = 0 ∧
        r.cancellations = 0 ∧ r.delayduration = 0) ∧
      (k ∉ (techProj aggF tech).map TProj.key →
        r.pilotreports = 0 ∧ r.maintenancereports = 0) ∧
      (k ∉ (yearFilteredMaint aggF aggM).map MRow.key →
        r.ADOSS = 0 ∧ r.ADOSU = 0) := by
  have hFf : ((yearFilteredFlights aggF).map FRow.key).Nodup :=
    hF.sublist (List.Sublist.map FRow.key (List.filter_sublist _))
  have hMf : ((yearFilteredMaint aggF aggM).map MRow.key).Nodup :=
    hM.sublist (List.Sublist.map MRow.key (List.filter_sublist _))
  have hT : ((techProj aggF tech).map TProj.key).Nodup := map_key_techProj aggF tech
  have hm1 : ((merged1 aggF tech).map fun x => x.1).Nodup := by
    unfold merged1
    exact outerJoin_nodup_keys hFf hT
  constructor
  · show ((dailyStats aggF aggM tech).countP fun r => decide (DRow.key r = k)) = 1
    unfold dailyStats
    rw [List.countP_map]
    have hco : ((fun r : DRow => decide (DRow.key r = k)) ∘ fillDaily) =
        fun x : AggKey × Option (AggKey × Option FRow × Option TProj) × Option MRow =>
          decide (x.1 = k) := rfl
    rw [hco]
    show ((merged2 aggF aggM tech).countP fun x => decide (x.1 = k)) = 1
    unfold merged2
    refine Eq.trans (outerJoin_countP hm1 hMf k) ?_
    rw [if_pos ?_]
    rcases hk with h | h | h
    · left
      unfold merged1
      exact (outerJoin_key_mem_iff k).mpr (Or.inl h)
    · right
      exact h
    · left
      unfold merged1
      exact (outerJoin_key_mem_iff k).mpr (Or.inr h)
  · intro r hr hkey
    rcases List.mem_map.mp hr with ⟨x, hx, hxr⟩
    have hxkey : x.1 = k := by
      rw [← hkey, ← hxr]
      rfl
    refine ⟨?_, ?_, ?_⟩
    · intro hnotF
      rcases h21 : x.2.1 with _ | y
      · rw [← hxr]
        unfold fillDaily
        rw [h21]
        exact ⟨rfl, rfl, rfl, rfl, rfl⟩
      · have hy := outerJoin_left_some hx h21
        have hyk : y.1 = k := by rw [← hxkey, hy.2]
        have hynone : y.2.1 = none := by
          apply outerJoin_left_none hy.1
          rw [hyk]
          exact hnotF
        rw [← hxr]
        unfold fillDaily
        rw [h21]
        rcases y with ⟨yk, yf, yt⟩
        simp only at hynone
        rw [hynone]
        exact ⟨rfl, rfl, rfl, rfl, rfl⟩
    · intro hnotT
      rcases h21 : x.2.1 with _ | y
      · rw [← hxr]
        unfold fillDaily
        rw [h21]
        exact ⟨rfl, rfl⟩
      · have hy := outerJoin_left_some hx h21
        have hyk : y.1 = k := by rw [← hxkey, hy.2]
        have hynone : y.2.2 = none := by
          apply outerJoin_right_none hy.1
          rw [hyk]
          exact hnotT
        rw [← hxr]
        unfold fillDaily
        rw [h21]
        rcases y with ⟨yk, yf, yt⟩
        simp only at hynone
        rw [hynone]
        rcases yf with _ | f
        · exact ⟨rfl, rfl⟩
        · exact ⟨rfl, rfl⟩
    · intro hnotM
      have hxnone : x.2.2 = none := by
        apply outerJoin_right_none hx
        rw [hxkey]
        exact hnotM
      rw [← hxr]
      unfold fillDaily
      rw [hxnone]
      rcases h21 : x.2.1 with _ | y
      · exact ⟨rfl, rfl⟩
      · exact ⟨rfl, rfl⟩

/-- Witness for the zero-fill theorem at a concrete input. -/
theorem zero_fill_completeness_witness :
    (([wFRow].map FRow.key).Nodup ∧ (([] : List MRow).map MRow.key).Nodup ∧
      (((⟨2023, 7, 1⟩ : Date), "XY-HHH") : AggKey) ∈
        (yearFilteredFlights [wFRow]).map FRow.key) ∧
    ((merge_flights_maint_log [wFRow] [] []).2.countP
      fun r => decide (DRow.key r = (((⟨2023, 7, 1⟩ : Date), "XY-HHH") : AggKey))) = 1 := by
  refine ⟨⟨by decide, by decide, by decide⟩, ?_⟩
  exact (zero_fill_completeness [wFRow] [] [] (by decide) (by decide) _
    (Or.inl (by decide))).1

theorem mem_map_filter_year {α : Type} (f : α → Date) (p : Nat → Bool) (l : List α)
    (d : Date) :
    (d ∈ (l.filter fun r => p (f r).year).map f) ↔ (d ∈ l.map f) ∧ p d.year = true := by
  constructor
  · intro h
    rcases List.mem_map.mp h with ⟨r, hr, hrd⟩
    rw [List.mem_filter] at hr
    refine ⟨List.mem_map.mpr ⟨r, hr.1, hrd⟩, ?_⟩
    rw [← hrd]
    exact hr.2
  · rintro ⟨h, hp⟩
    rcases List.mem_map.mp h with ⟨r, hr, hrd⟩
    refine List.mem_map.mpr ⟨r, List.mem_filter.mpr ⟨hr, ?_⟩, hrd⟩
    rw [hrd]
    exact hp

theorem year_mem_of_filtered_key {α : Type} (key2 : α → AggKey) (f2 : α → Date)
    (hkey : ∀ r, (key2 r).1 = f2 r) (vy : List Nat) (l : List α) (k : AggKey)
    (hk : k ∈ (l.filter fun r => vy.contains (f2 r).year).map key2) :
    vy.contains k.1.year = true := by
  rcases List.mem_map.mp hk with ⟨r, hr, hrk⟩
  rw [List.mem_filter] at hr
  rw [← hrk, hkey r]
  exact hr.2

theorem techProj_keys (aggF : List FRow) (tech : List TRow) :
    (techProj aggF tech).map TProj.key =
      ((yearFilteredTech aggF tech).map TRow.key).dedup := by
  unfold techProj
  apply groupSum_map_key
  intro c fiber
  rfl

/-- C6: the date dimension is the sorted, deduplicated union of the
dates of the three aggregated sources restricted to years present in
the flights aggregate; every daily fact row's year is such a flight
year; and in the concrete scenario a 2021-dated maintenance row is
excluded from both outputs when flights cover only 2022 and 2023. -/
theorem date_dimension_year_filter (aggF : List FRow) (aggM : List MRow)
    (tech : List TRow) :
    List.Sorted dateLe ((merge_flights_maint_log aggF aggM tech).1.map fun t => t.date) ∧
    ((merge_flights_maint_log aggF aggM tech).1.map fun t => t.date).Nodup ∧
    (∀ d : Date,
      d ∈ (merge_flights_maint_log aggF aggM tech).1.map (fun t => t.date) ↔
        ((d ∈ aggF.map fun r => r.date) ∨ (d ∈ aggM.map fun r => r.date) ∨
          (d ∈ tech.map fun r => r.date)) ∧ d.year ∈ validYears aggF) ∧
    (∀ r ∈ (merge_flights_maint_log aggF aggM tech).2, r.date.year ∈ validYears aggF) ∧
    ((⟨2021, 3, 4⟩ : Date) ∉
      (merge_flights_maint_log [scenF1, scenF2] [scenM21] []).1.map fun t => t.date) ∧
    (∀ r ∈ (merge_flights_maint_log [scenF1, scenF2] [scenM21] []).2,
      r.date.year ≠ 2021) := by
  have htime : (merge_flights_maint_log aggF aggM tech).1.map (fun t => t.date) =
      timeDates aggF aggM tech := by
    show (timeDim aggF aggM tech).map (fun t => t.date) = timeDates aggF aggM tech
    unfold timeDim
    rw [List.map_map]
    exact List.map_id _
  refine ⟨?_, ?_, ?_, ?_, by decide, by decide⟩
  · rw [htime]
    exact List.sorted_insertionSort dateLe _
  · rw [htime]
    exact ((List.perm_insertionSort dateLe _).nodup_iff).mpr (List.nodup_dedup _)
  · intro d
    rw [htime]
    show d ∈ List.insertionSort dateLe (allDates aggF aggM tech) ↔ _
    rw [List.mem_insertionSort]
    unfold allDates
    rw [List.mem_dedup, List.mem_append, List.mem_append]
    constructor
    · rintro ((h | h) | h)
      · have := (mem_map_filter_year (fun r : FRow => r.date)
          ((validYears aggF).contains) aggF d).mp h
        exact ⟨Or.inl this.1, by simpa using this.2⟩
      · have := (mem_map_filter_year (fun r : MRow => r.date)
          ((validYears aggF).contains) aggM d).mp h
        exact ⟨Or.inr (Or.inl this.1), by simpa using this.2⟩
      · have := (mem_map_filter_year (fun r : TRow => r.date)
          ((validYears aggF).contains) tech d).mp h
        exact ⟨Or.inr (Or.inr this.1), by simpa using this.2⟩
    · rintro ⟨hor, hy⟩
      have hyc : ((validYears aggF).contains d.year) = true :=
        List.elem_eq_true_of_mem hy
      rcases hor with h | h | h
      · exact Or.inl (Or.inl ((mem_map_filter_year (fun r : FRow => r.date)
          ((validYears aggF).contains) aggF d).mpr ⟨h, hyc⟩))
      · exact Or.inl (Or.inr ((mem_map_filter_year (fun r : MRow => r.date)
          ((validYears aggF).contains) aggM d).mpr ⟨h, hyc⟩))
      · exact Or.inr ((mem_map_filter_year (fun r : TRow => r.date)
          ((validYears aggF).contains) tech d).mpr ⟨h, hyc⟩)
  · intro r hr
    rcases List.mem_map.mp hr with ⟨x, hx, hxr⟩
    have hdate : r.date = x.1.1 := by
      rw [← hxr]
      rfl
    have hcont : ((validYears aggF).contains x.1.1.year) = true := by
      rcases outerJoin_key_mem hx with h | h
      · unfold merged1 at h
        rw [outerJoin_key_mem_iff] at h
        rcases h with h | h
        · exact year_mem_of_filtered_key FRow.key (fun q => q.date) (fun q => rfl)
            _ aggF x.1 h
        · rw [techProj_keys, List.mem_dedup] at h
          exact year_mem_of_filtered_key TRow.key (fun q => q.date) (fun q => rfl)
            _ tech x.1 h
      · exact year_mem_of_filtered_key MRow.key (fun q => q.date) (fun q => rfl)
          _ aggM x.1 h
    rw [hdate]
    simpa using hcont

theorem dedup_filter {α : Type} [DecidableEq α] (p : α → Bool) (l : List α) :
    (l.filter p).dedup = l.dedup.filter p := by
  induction l with
  | nil => rfl
  | cons a t ih =>
    rw [List.filter_cons]
    by_cases hp : p a
    · rw [if_pos hp]
      by_cases hm : a ∈ t
      · rw [List.dedup_cons_of_mem (List.mem_filter.mpr ⟨hm, hp⟩),
          List.dedup_cons_of_mem hm, ih]
      · rw [List.dedup_cons_of_not_mem (fun hc => hm (List.mem_of_mem_filter hc)),
          List.dedup_cons_of_not_mem hm, List.filter_cons, if_pos hp, ih]
    · rw [if_neg hp]
      by_cases hm : a ∈ t
      · rw [List.dedup_cons_of_mem hm, ih]
      · rw [List.dedup_cons_of_not_mem hm, List.filter_cons, if_neg hp, ih]

theorem groupSum_filter_key {α K β : Type} [DecidableEq K] (key : α → K)
    (mk : K → List α → β) (qk : K → Bool) (l : List α) :
    groupSum key mk (l.filter fun x => qk (key x)) =
      ((l.map key).dedup.filter qk).map fun c =>
        mk c (l.filter fun x => decide (key x = c)) := by
  unfold groupSum
  have hkeys : ((l.filter fun x => qk (key x)).map key).dedup =
      (l.map key).dedup.filter qk := by
    rw [← dedup_filter]
    congr 1
    exact (List.map_filter key l).symm
  rw [hkeys]
  apply List.map_congr_left
  intro c hc
  rw [List.mem_filter] at hc
  congr 1
  rw [List.filter_filter]
  apply List.filter_congr
  intro x _
  by_cases hx : key x = c
  · rw [hx]
    simp [hc.2]
  · simp [hx]

theorem marepReports_filter (tech : List TRow) (time : List TimeRow)
    (lookup : List Reporter) :
    marepReports (tech.filter fun r => !(orphanMarep lookup r)) time =
      (marepReports tech time).filter fun r =>
        (lookup.map Reporter.reporteurid).contains r.reporteurid := by
  unfold marepReports
  rw [List.filter_filter, List.filter_filter, List.filter_filter, List.filter_filter]
  apply List.filter_congr
  intro r _
  unfold orphanMarep
  cases hM : (r.reporteurclass == "MAREP") <;>
    cases hD : ((time.map fun t => t.date).contains r.date) <;>
    cases hR : ((lookup.map Reporter.reporteurid).contains r.reporteurid) <;>
    simp [hM, hD, hR]

theorem reportCounts_filter (tech : List TRow) (time : List TimeRow)
    (lookup : List Reporter) :
    reportCounts (tech.filter fun r => !(orphanMarep lookup r)) time =
      (reportCounts tech time).filter fun c =>
        (lookup.map Reporter.reporteurid).contains c.reporteurid := by
  have hkeys : (((marepReports tech time).filter fun r =>
      (lookup.map Reporter.reporteurid).contains r.reporteurid).map
        fun r : TRow => (r.reporteurid, r.aircraftregistration)).dedup =
      (((marepReports tech time).map fun r : TRow =>
        (r.reporteurid, r.aircraftregistration)).dedup).filter
        fun k => (lookup.map Reporter.reporteurid).contains k.1 := by
    rw [← dedup_filter]
    congr 1
    rw [List.map_filter]
    congr 1
  have hfibers : ∀ c ∈ ((((marepReports tech time).map fun r : TRow =>
      (r.reporteurid, r.aircraftregistration)).dedup).filter
        fun k => (lookup.map Reporter.reporteurid).contains k.1),
      (((marepReports tech time).filter fun r =>
        (lookup.map Reporter.reporteurid).contains r.reporteurid).filter
          fun x => decide
            ((fun r : TRow => (r.reporteurid, r.aircraftregistration)) x = c)) =
      ((marepReports tech time).filter
        fun x => decide
          ((fun r : TRow => (r.reporteurid, r.aircraftregistration)) x = c)) := by
    intro c hc
    rw [List.mem_filter] at hc
    rw [List.filter_filter]
    apply List.filter_congr
    intro x _
    by_cases hx : (x.reporteurid, x.aircraftregistration) = c
    · have hxr : (lookup.map Reporter.reporteurid).contains x.reporteurid = true := by
        have hfst : x.reporteurid = c.1 := congrArg Prod.fst hx
        rw [hfst]
        exact hc.2
      have h1 : (decide
          ((fun r : TRow => (r.reporteurid, r.aircraftregistration)) x = c)) = true := by
        simp [hx]
      rw [h1, hxr]
      rfl
    · have h0 : (decide
          ((fun r : TRow => (r.reporteurid, r.aircraftregistration)) x = c)) = false := by
        simp [hx]
      rw [h0, Bool.false_and]
  have h1 : reportCounts (tech.filter fun r => !(orphanMarep lookup r)) time =
      ((((marepReports tech time).map fun r : TRow =>
        (r.reporteurid, r.aircraftregistration)).dedup).filter
          fun k => (lookup.map Reporter.reporteurid).contains k.1).map fun c =>
        ({ reporteurid := c.1, aircraftregistration := c.2,
           count := ((marepReports tech time).filter (fun x => decide
             ((fun r : TRow => (r.reporteurid, r.aircraftregistration)) x =
               c))).length } : CountRow) := by
    unfold reportCounts groupSum
    rw [marepReports_filter tech time lookup, hkeys]
    apply List.map_congr_left
    intro c hc
    rw [hfibers c hc]
  have h2 : ((reportCounts tech time).filter fun c =>
      (lookup.map Reporter.reporteurid).contains c.reporteurid) =
      ((((marepReports tech time).map fun r : TRow =>
        (r.reporteurid, r.aircraftregistration)).dedup).filter
          fun k => (lookup.map Reporter.reporteurid).contains k.1).map fun c =>
        ({ reporteurid := c.1, aircraftregistration := c.2,
           count := ((marepReports tech time).filter (fun x => decide
             ((fun r : TRow => (r.reporteurid, r.aircraftregistration)) x =
               c))).length } : CountRow) := by
    unfold reportCounts groupSum
    rw [List.map_filter]
    congr 1
  exact h1.trans h2.symm

theorem join_airports_filter (p : CountRow → Bool) (counts : List CountRow)
    (lookup : List Reporter) :
    join_airports_to_maint (counts.filter p) lookup =
      (join_airports_to_maint counts lookup).filter fun x => p x.1 := by
  unfold join_airports_to_maint
  induction counts with
  | nil => rfl
  | cons c t ih =>
    rw [List.filter_cons, List.flatMap_cons, List.filter_append, ← ih]
    by_cases hp : p c
    · rw [if_pos hp, List.flatMap_cons]
      congr 1
      symm
      apply List.filter_eq_self.mpr
      intro x hx
      by_cases hemp : ((lookup.filter fun l => l.reporteurid == c.reporteurid).isEmpty : Bool)
      · rw [if_pos hemp] at hx
        rw [List.mem_singleton.mp hx]
        exact hp
      · rw [if_neg hemp] at hx
        rcases List.mem_map.mp hx with ⟨l, _, hxl⟩
        rw [← hxl]
        exact hp
    · rw [if_neg hp]
      have hz : ((if (lookup.filter fun l => l.reporteurid == c.reporteurid).isEmpty
          then [(c, (none : Option String))]
          else (lookup.filter fun l => l.reporteurid == c.reporteurid).map fun l =>
            (c, some l.airport)).filter fun x => p x.1) = [] := by
        rw [List.filter_eq_nil_iff]
        intro x hx
        by_cases hemp : ((lookup.filter fun l => l.reporteurid == c.reporteurid).isEmpty : Bool)
        · rw [if_pos hemp] at hx
          rw [List.mem_singleton.mp hx]
          simp [hp]
        · rw [if_neg hemp] at hx
          rcases List.mem_map.mp hx with ⟨l, _, hxl⟩
          rw [← hxl]
          simp [hp]
      rw [hz, List.nil_append]

theorem filterMap_eq_filterMap_filter {α β : Type} (q : α → Bool) (g : α → Option β)
    (hg : ∀ x, q x = false → g x = none) (l : List α) :
    (l.filter q).filterMap g = l.filterMap g := by
  induction l with
  | nil => rfl
  | cons a t ih =>
    rw [List.filter_cons]
    by_cases hq : q a
    · rw [if_pos hq, List.filterMap_cons, List.filterMap_cons]
      rcases g a with _ | b
      · exact ih
      · rw [ih]
    · rw [if_neg hq, List.filterMap_cons, hg a (Bool.not_eq_true _ ▸ hq), ih]

theorem join_none_iff (counts : List CountRow) (lookup : List Reporter) :
    ∀ x ∈ join_airports_to_maint counts lookup,
      (x.2 = none ↔ x.1.reporteurid ∉ lookup.map Reporter.reporteurid) := by
  intro x hx
  unfold join_airports_to_maint at hx
  rcases List.mem_flatMap.mp hx with ⟨c, _, hxc⟩
  by_cases hemp : ((lookup.filter fun l => l.reporteurid == c.reporteurid).isEmpty : Bool)
  · rw [if_pos hemp] at hxc
    rw [List.mem_singleton.mp hxc]
    constructor
    · intro _ hmem
      rcases List.mem_map.mp hmem with ⟨l, hl, hlr⟩
      have := List.filter_eq_nil_iff.mp (List.isEmpty_iff.mp hemp) l hl
      simp [hlr] at this
    · intro _
      rfl
  · rw [if_neg hemp] at hxc
    rcases List.mem_map.mp hxc with ⟨l, hlf, hxl⟩
    rw [List.mem_filter] at hlf
    rw [← hxl]
    constructor
    · intro hcon
      exact Option.noConfusion hcon
    · intro hmem
      exfalso
      apply hmem
      have : l.reporteurid = c.reporteurid := by simpa using hlf.2
      rw [← this]
      exact List.mem_map_of_mem Reporter.reporteurid hlf.1

theorem totalByAirport_filter_isSome (cj : List (CountRow × Option String)) :
    totalByAirport (cj.filter fun x => x.2.isSome) = totalByAirport cj := by
  unfold totalByAirport
  have hkeys : ((cj.filter fun x => x.2.isSome).filterMap fun x =>
      x.2.map fun a => (x.1.aircraftregistration, a)) =
      cj.filterMap fun x => x.2.map fun a => (x.1.aircraftregistration, a) := by
    apply filterMap_eq_filterMap_filter
    intro x hx
    rcases hx2 : x.2 with _ | a
    · rfl
    · rw [hx2] at hx
      exact Bool.noConfusion hx
  rw [hkeys]
  apply List.map_congr_left
  intro c _
  congr 1
  rw [List.filter_filter]
  have hf : (cj.filter fun a =>
      decide (a.1.aircraftregistration = c.1 ∧ a.2 = some c.2) && a.2.isSome) =
      cj.filter fun x => decide (x.1.aircraftregistration = c.1 ∧ x.2 = some c.2) := by
    apply List.filter_congr
    intro x _
    rcases hx2 : x.2 with _ | a
    · simp [hx2]
    · simp [hx2]
  rw [hf]

theorem join_isSome_eq (counts : List CountRow) (lookup : List Reporter) :
    ∀ x ∈ join_airports_to_maint counts lookup,
      x.2.isSome = (lookup.map Reporter.reporteurid).contains x.1.reporteurid := by
  intro x hx
  have h := join_none_iff counts lookup x hx
  rcases hx2 : x.2 with _ | a
  · rw [hx2] at h
    rcases hcb : ((lookup.map Reporter.reporteurid).contains x.1.reporteurid) with _ | _
    · rfl
    · exfalso
      exact (h.mp rfl) (by simpa using hcb)
  · rw [hx2] at h
    rcases hcb : ((lookup.map Reporter.reporteurid).contains x.1.reporteurid) with _ | _
    · exfalso
      have hnot : x.1.reporteurid ∉ lookup.map Reporter.reporteurid := by
        simpa using hcb
      exact Option.noConfusion (h.mpr hnot)
    · rfl

/-- C10: a MAREP report whose reporter id has no row in the reporter
lookup gets a null airport from the left join (first conjunct), and is
then dropped by the (aircraft, airport) group-by: the whole output of
`create_total_maint_reports` is unchanged when all such orphan MAREP
reports are removed up front, so their counts contribute to no output
row; the function writes no audit log for them. -/
theorem orphan_marep_reports_dropped (aggF : List FRow) (tech : List TRow)
    (lookup : List Reporter) (time : List TimeRow) :
    (∀ x ∈ join_airports_to_maint (reportCounts tech time) lookup,
      (x.2 = none ↔ x.1.reporteurid ∉ lookup.map Reporter.reporteurid)) ∧
    create_total_maint_reports aggF tech lookup time =
      create_total_maint_reports aggF
        (tech.filter fun r => !(orphanMarep lookup r)) lookup time := by
  refine ⟨join_none_iff _ lookup, ?_⟩
  unfold create_total_maint_reports
  congr 1
  rw [reportCounts_filter tech time lookup, join_airports_filter,
    ← totalByAirport_filter_isSome (join_airports_to_maint (reportCounts tech time)
      lookup)]
  congr 1
  apply List.filter_congr
  intro x hx
  exact join_isSome_eq (reportCounts tech time) lookup x hx

/-- Witness for the orphan-MAREP theorem at a concrete input. -/
theorem orphan_marep_reports_dropped_witness :
    ((({ reporteurid := 2, aircraftregistration := "XY-III", count := 1 } : CountRow),
        (none : Option String)) ∈
      join_airports_to_maint (reportCounts wTech wTime) wLookup) ∧
    ((none : Option String) = none ↔
      (2 : Nat) ∉ wLookup.map Reporter.reporteurid) ∧
    create_total_maint_reports [wFRow] wTech wLookup wTime =
      create_total_maint_reports [wFRow]
        (wTech.filter fun r => !(orphanMarep wLookup r)) wLookup wTime := by
  refine ⟨?_, ?_, (orphan_marep_reports_dropped [wFRow] wTech wLookup wTime).2⟩
  · decide
  · exact (orphan_marep_reports_dropped [wFRow] wTech wLookup wTime).1
      (({ reporteurid := 2, aircraftregistration := "XY-III", count := 1 } : CountRow),
        (none : Option String)) (by decide)

/-- Witness for the date-dimension theorem at a concrete input. -/
theorem date_dimension_year_filter_witness :
    wDRow ∈ (merge_flights_maint_log [wFRow] [] []).2 ∧
    wDRow.date.year ∈ validYears [wFRow] := by
  refine ⟨?_, ?_⟩
  · decide
  · exact (date_dimension_year_filter [wFRow] [] []).2.2.2.1 wDRow (by decide)

end AviationDW
